import Mathlib

/-!
Verification of the semantic/geometric mapping and relational-resolution engine of
the `ifc2citygml.py` converter (IFC → CityGML 3.0), as a shallow embedding.

The embedding models:
  * IFC entities as `IfcElement` records holding exactly the attributes the converter
    reads (`is_a()` as `cls`, `GlobalId` as `guid`, `Representation` sub-representations,
    the relation objects `HasOpenings`, `HasFillings`, `ContainedInStructure`,
    `Decomposes`, `ContainsElements`, `IsDecomposedBy`).  Entities reference each other
    by a numeric identity `eid` (Python object identity); a `World` carries the entity
    list together with the external geometry kernel (`shapes`, where `none` models
    `ifcopenshell.geom.create_shape` raising) and the georeferencing parameters.
  * floating point numbers as exact rationals (`ℚ`); Python `round(x, 6)` as
    round-half-to-even at six decimals on rationals.
  * `uuid.uuid4()` as a monotone counter threaded through the run: each draw yields the
    current counter value, which is therefore globally fresh.  Python's UUIDs have no
    observable order, so only freshness is preserved, which is all the converter relies on.
  * the XML document as a list of `Feature` records per building, keeping exactly the
    observables the claims are about: the feature node's gml:id, its kind
    (wall / other constructive / installation / room / furniture / dummy bucket / storey),
    the source element, whether a geometry child was emitted, the embedded fillings and
    the xlink targets of a storey's member list.  Name/description children, external
    references, generic attributes, appearance children and console output are diagnostic
    or metadata side channels that none of the verified properties mention; they are
    omitted from the document model.

All functions are total and executable; recursion over the model-defined containment
hierarchy is fuel-bounded by the number of entities in the model.
-/

namespace Ifc2CityGml

/-! ## Basic data model -/

/-- A sub-representation of `element.Representation.Representations`: the converter reads
`RepresentationIdentifier` and `RepresentationType`, both optional in IFC. -/
structure SubRep where
  representationIdentifier : Option String
  representationType : Option String
  deriving DecidableEq, Repr

/-- Relation object in `element.HasOpenings` (an `IfcRelVoidsElement` candidate):
`is_a('IfcRelVoidsElement')` and `RelatedOpeningElement` (by entity identity). -/
structure VoidRel where
  isVoidsRel : Bool
  relatedOpening : Option Nat
  deriving DecidableEq, Repr

/-- Relation object in `opening.HasFillings` (an `IfcRelFillsElement` candidate):
`is_a('IfcRelFillsElement')` and `RelatedBuildingElement` (by entity identity). -/
structure FillRel where
  isFillsRel : Bool
  relatedBuildingElement : Option Nat
  deriving DecidableEq, Repr

/-- Relation object in `element.ContainedInStructure`
(an `IfcRelContainedInSpatialStructure` candidate) with its `RelatingStructure`. -/
structure ContainedInRel where
  isContainedRel : Bool
  relatingStructure : Option Nat
  deriving DecidableEq, Repr

/-- Relation object in `element.Decomposes` (an `IfcRelAggregates` / `IfcRelNests`
candidate) with its `RelatingObject`. -/
structure DecompParentRel where
  isAggOrNest : Bool
  relatingObject : Option Nat
  deriving DecidableEq, Repr

/-- Relation object in `structure.ContainsElements`
(an `IfcRelContainedInSpatialStructure` candidate) with its `RelatedElements`. -/
structure ContainsRel where
  isContainedRel : Bool
  relatedElements : List Nat
  deriving DecidableEq, Repr

/-- Relation object in `element.IsDecomposedBy` (aggregation/nesting children), used by
the external decomposition closure. -/
structure DecompChildRel where
  isAggOrNest : Bool
  relatedObjects : List Nat
  deriving DecidableEq, Repr

/-- An IFC entity, restricted to the attributes the converter reads.  `eid` is the
Python object identity; `cls` is `is_a()`; `guid` is `GlobalId` with `""` standing for
a missing/falsy value. -/
structure IfcElement where
  eid : Nat
  cls : String
  guid : String
  representation : Option (List SubRep)
  hasOpenings : List VoidRel
  hasFillings : List FillRel
  containedInStructure : List ContainedInRel
  decomposes : List DecompParentRel
  containsElements : List ContainsRel
  isDecomposedBy : List DecompChildRel
  deriving DecidableEq, Repr

/-- Kernel material entry of `shape.geometry.materials`: an optional diffuse colour and
an optional transparency, after the attribute-shape probing in
`get_geometry_with_surface_ids` (lines 416-452). -/
structure KernelMaterial where
  diffuse : Option (ℚ × ℚ × ℚ)
  transparency : Option ℚ
  deriving DecidableEq, Repr

/-- Result of `ifcopenshell.geom.create_shape(...).geometry`: flat vertex list, flat
triangle index buffer, material table and per-face material indices.  The indices are
`Int` because the kernel interface only promises integers. -/
structure RawShape where
  verts : List (ℚ × ℚ × ℚ)
  faces : List Nat
  materials : List KernelMaterial
  materialIds : List Int
  deriving DecidableEq, Repr

/-- Georeferencing parameters extracted by `_setup_georeferencing` plus the CLI offsets. -/
structure Georef where
  scale : ℚ
  rot : (ℚ × ℚ × ℚ) × (ℚ × ℚ × ℚ) × (ℚ × ℚ × ℚ)
  eastings : ℚ
  northings : ℚ
  orthogonalHeight : ℚ
  xoffset : ℚ
  yoffset : ℚ
  zoffset : ℚ
  deriving DecidableEq, Repr

/-- The IFC model together with its external collaborators: `shapes` is the geometry
kernel (`none` models `create_shape` raising an exception for that element). -/
structure World where
  elements : List IfcElement
  shapes : Nat → Option RawShape
  georef : Georef

/-- Configuration options relevant to the modelled pipeline
(`--unrelated-doors-and-windows-in-dummy-bce` and `--no-storeys`).  The remaining CLI
options only toggle metadata/diagnostic output that the document model omits. -/
structure Config where
  unrelatedDummy : Bool
  noStoreys : Bool
  deriving DecidableEq, Repr

/-- Resolve an entity reference (Python attribute access cannot dangle; `none` can only
arise for identities absent from the model). -/
def findElem (w : World) (e : Nat) : Option IfcElement :=
  w.elements.find? (fun el => el.eid == e)

/-- The converter's `model.by_type(t)`, with `cls` playing the role of the exact entity
type (the converter additionally filters with `e.is_a() == ifc_type` where subtype
duplicates matter, which coincides with this model). -/
def byType (w : World) (t : String) : List IfcElement :=
  w.elements.filter (fun el => el.cls == t)

/-! ## Python `round(x, 6)` on exact rationals (round half to even) -/

/-- Round a rational to the nearest integer, ties to even (Python's `round`). -/
def roundHalfEven (q : ℚ) : ℤ :=
  if q - ⌊q⌋ < 1/2 then ⌊q⌋
  else if q - ⌊q⌋ > 1/2 then ⌊q⌋ + 1
  else if ⌊q⌋ % 2 = 0 then ⌊q⌋ else ⌊q⌋ + 1

/-- Python `round(x, 6)`: round half to even at six decimal digits. -/
def round6 (q : ℚ) : ℚ :=
  (roundHalfEven (q * 1000000) : ℚ) / 1000000

/-- Python `str.lower()` on the character data (character-wise lowercasing; the alias
comparisons only involve ASCII). -/
def strLower (s : String) : String := String.mk (s.data.map Char.toLower)

/-! ## Geometry classifier (`is_intended_solid`, lines 338-363) -/

/-- The module constant `SOLID_REPRESENTATION_TYPES` (lines 37-44). -/
def SOLID_REPRESENTATION_TYPES : List String :=
  ["SweptSolid", "Brep", "AdvancedBrep", "CSG", "Clipping", "BoundingBox"]

/-- One iteration of the loop body of `is_intended_solid`: the sub-representation is
skipped when its identifier is truthy (non-`None` and non-empty) and its lowercase form
is not one of the body aliases; otherwise its `RepresentationType` is tested against the
solid-type set. -/
def subRepPasses (r : SubRep) : Bool :=
  let skipped :=
    match r.representationIdentifier with
    | some s => !(s == "") && !(["body", "mesh", "facetedbrep"].contains (strLower s))
    | none => false
  if skipped then false
  else
    match r.representationType with
    | some t => SOLID_REPRESENTATION_TYPES.contains t
    | none => false

/-- `is_intended_solid(element)`: `False` without a representation, else `True` as soon
as one non-skipped sub-representation has a solid representation type. -/
def isIntendedSolid (representation : Option (List SubRep)) : Bool :=
  match representation with
  | none => false
  | some reps => reps.any subRepPasses

/-! ## Opening/filling resolver (`get_doors_and_windows_in_element`, lines 247-270) -/

/-- The fillings contributed by one `HasOpenings` relation: follow the void relation to
its opening, then every `IfcRelFillsElement` to a filling that is a door or window.
Results are appended in traversal order with no deduplication. -/
def fillingsOfVoidRel (w : World) (vr : VoidRel) : List Nat :=
  if vr.isVoidsRel then
    match vr.relatedOpening.bind (findElem w) with
    | some op =>
      if op.cls == "IfcOpeningElement" then
        op.hasFillings.filterMap (fun fr =>
          if fr.isFillsRel then
            match fr.relatedBuildingElement.bind (findElem w) with
            | some f =>
              if f.cls == "IfcDoor" || f.cls == "IfcWindow" then some f.eid else none
            | none => none
          else none)
      else []
    | none => []
  else []

/-- `get_doors_and_windows_in_element(element)` as the concatenation over the host's
void relations. -/
def getDoorsAndWindowsInElement (w : World) (el : IfcElement) : List Nat :=
  el.hasOpenings.flatMap (fillingsOfVoidRel w)

/-- Whether one fill relation reaches the filling element `e` through the resolver's
guards (a genuine `IfcRelFillsElement` whose related element is `e` and is a door or a
window). -/
def fillRelReaches (w : World) (e : Nat) (fr : FillRel) : Bool :=
  fr.isFillsRel &&
    (match fr.relatedBuildingElement.bind (findElem w) with
     | some f => f.eid == e && (f.cls == "IfcDoor" || f.cls == "IfcWindow")
     | none => false)

/-- Number of (void-relation, fill-relation) paths from a host to a given filling
element that satisfy all the resolver's guards. -/
def fillPathCount (w : World) (host : IfcElement) (e : Nat) : Nat :=
  (host.hasOpenings.map (fun vr =>
    if vr.isVoidsRel then
      match vr.relatedOpening.bind (findElem w) with
      | some op =>
        if op.cls == "IfcOpeningElement" then
          (op.hasFillings.filter (fillRelReaches w e)).length
        else 0
      | none => 0
    else 0)).sum

/-! ## Generic attribute writer (`_add_generic_attribute_value`, lines 213-245) -/

/-- A Python property value as dispatched by `_add_generic_attribute_value`.  The
constructors are disjoint, which captures the Python dispatch order (the `bool` branch
is tested before the `int` branch, so a `bool` — although an `int` in Python — never
reaches the `int` branch).  `pyother` carries the `str(value)` text of any value of a
type other than `bool`/`int`/`float`/`str`. -/
inductive PyValue where
  | pybool (b : Bool)
  | pyfloat (q : ℚ)
  | pyint (i : ℤ)
  | pystr (s : String)
  | pyother (text : String)
  deriving DecidableEq, Repr

/-- Python `str(value)` for the values that can reach the final `else` branch, and for
ints as used by the `int` branch.  `str` on a float never feeds a claim, so the
`DoubleAttribute` value text keeps the exact rational via `toString`. -/
def pyStr : PyValue → String
  | .pybool b => if b then "True" else "False"
  | .pyfloat q => toString q
  | .pyint i => toString i
  | .pystr s => s
  | .pyother text => text

/-- The emitted generic-attribute node: element tag plus name and value text. -/
inductive GenAttr where
  | intAttr (name : String) (value : String)
  | doubleAttr (name : String) (value : String)
  | stringAttr (name : String) (value : String)
  deriving DecidableEq, Repr

/-- `_add_generic_attribute_value(parent, attr_name, attr_value, add_prefix, pset_name)`:
prefix handling and the four-way type dispatch. -/
def addGenericAttributeValue (attrName : String) (v : PyValue) (addPrefix : Bool)
    (psetName : Option String) : GenAttr :=
  let fullName :=
    match psetName with
    | some p => if addPrefix && !(p == "") then "[" ++ p ++ "]" ++ attrName else attrName
    | none => attrName
  match v with
  | .pybool b => .intAttr fullName (if b then "1" else "0")
  | .pyfloat q => .doubleAttr fullName (pyStr (.pyfloat q))
  | .pyint i => .intAttr fullName (pyStr (.pyint i))
  | .pystr s => .stringAttr fullName (pyStr (.pystr s))
  | .pyother text => .stringAttr fullName (pyStr (.pyother text))

/-! ## Face-material grouping engine (`add_appearance`, primary path, lines 716-731) -/

/-- A per-face material value `(r, g, b, transparency)`.  The tuples always have four
components because they come from `materials_list` built in
`get_geometry_with_surface_ids`, so the source's `len(mat_data) >= 3` guard always
holds. -/
def Mat4 := ℚ × ℚ × ℚ × ℚ
  deriving DecidableEq, Repr

/-- The bucket key `(round(r,6), round(g,6), round(b,6), round(transparency,6))`. -/
def materialKey (m : Mat4) : Mat4 :=
  (round6 m.1, round6 m.2.1, round6 m.2.2.1, round6 m.2.2.2)

/-- Python `material_faces.setdefault(key, []).append(i)` on an insertion-ordered
dictionary represented as an association list: append `i` to the entry of `k`, creating
the entry at the end when the key is first seen. -/
def addToGroup : List (Mat4 × List Nat) → Mat4 → Nat → List (Mat4 × List Nat)
  | [], k, i => [(k, [i])]
  | (k', is') :: rest, k, i =>
    if k = k' then (k', is' ++ [i]) :: rest else (k', is') :: addToGroup rest k i

/-- The grouping loop of `add_appearance` over `enumerate(face_materials)`: faces with a
material are bucketed under their rounded key; faces without one are omitted. -/
def groupFacesAux : List (Nat × Option Mat4) → List (Mat4 × List Nat) → List (Mat4 × List Nat)
  | [], acc => acc
  | (_, none) :: rest, acc => groupFacesAux rest acc
  | (i, some m) :: rest, acc => groupFacesAux rest (addToGroup acc (materialKey m) i)

/-- The material groups (`material_faces`) produced for a per-face material list, one
`(key, face indices)` pair per bucket in first-seen order. -/
def groupFaces (faceMaterials : List (Option Mat4)) : List (Mat4 × List Nat) :=
  groupFacesAux faceMaterials.enum []

/-! ## Geometry extraction (`get_geometry_with_surface_ids`, lines 394-487) -/

/-- `transform_vertex(vertex)`: scale, rotate, then translate by the georeference plus
the CLI offsets. -/
def transformVertex (g : Georef) (v : ℚ × ℚ × ℚ) : ℚ × ℚ × ℚ :=
  let s := (v.1 * g.scale, v.2.1 * g.scale, v.2.2 * g.scale)
  let r := g.rot
  (r.1.1 * s.1 + r.1.2.1 * s.2.1 + r.1.2.2 * s.2.2 + g.eastings + g.xoffset,
   r.2.1.1 * s.1 + r.2.1.2.1 * s.2.1 + r.2.1.2.2 * s.2.2 + g.northings + g.yoffset,
   r.2.2.1 * s.1 + r.2.2.2.1 * s.2.1 + r.2.2.2.2 * s.2.2 + g.orthogonalHeight + g.zoffset)

/-- Group the flat face-index buffer into triangles, as `range(0, len(faces), 3)` with
accesses `faces[i], faces[i+1], faces[i+2]`.  A length that is not a multiple of three
makes the Python loop raise `IndexError` on its last chunk, modelled as `none`. -/
def chunk3 : List Nat → Option (List (Nat × Nat × Nat))
  | [] => some []
  | a :: b :: c :: rest => (chunk3 rest).map (fun ts => (a, b, c) :: ts)
  | _ => none

/-- Coordinate list of one polygon: the three transformed vertices followed by the first
one again, flattened (`poly_coords` in the source).  An out-of-range vertex index raises
in Python, modelled as `none`. -/
def mkPoly (g : Georef) (verts : List (ℚ × ℚ × ℚ)) (t : Nat × Nat × Nat) :
    Option (List ℚ) := do
  let a ← verts.get? t.1
  let b ← verts.get? t.2.1
  let c ← verts.get? t.2.2
  let ta := transformVertex g a
  let tb := transformVertex g b
  let tc := transformVertex g c
  pure [ta.1, ta.2.1, ta.2.2, tb.1, tb.2.1, tb.2.2, tc.1, tc.2.1, tc.2.2,
        ta.1, ta.2.1, ta.2.2]

/-- `materials_list` (lines 415-455): keep one `(r, g, b, transparency)` entry per
kernel material with an extractable diffuse colour; transparency defaults to `0` and is
only taken when present and positive.  Materials without a colour are skipped. -/
def materialsListOf (mats : List KernelMaterial) : List Mat4 :=
  mats.filterMap (fun m =>
    m.diffuse.map (fun c =>
      (c.1, c.2.1, c.2.2,
        match m.transparency with
        | some t => if 0 < t then t else 0
        | none => 0)))

/-- Python list indexing `l[i]` including negative indices; `none` models `IndexError`. -/
def pyIndex (l : List Mat4) (i : ℤ) : Option Mat4 :=
  if 0 ≤ i then l.get? i.toNat
  else if (-i).toNat ≤ l.length then l.get? (l.length - (-i).toNat)
  else none

/-- The per-face material lookup (lines 474-483): `none` in the inner option is the
appended `None`; `none` in the outer option is an `IndexError` from a negative index
reaching past the front of `materials_list` (Python indexing), which aborts the whole
extraction. -/
def faceMatAt (mids : List ℤ) (ml : List Mat4) (faceIdx : Nat) : Option (Option Mat4) :=
  if !mids.isEmpty && decide (faceIdx < mids.length) then
    let matId := mids.getD faceIdx 0
    if matId < (ml.length : ℤ) then
      match pyIndex ml matId with
      | some m => some (some m)
      | none => none
    else some none
  else some none

/-- Fail-fast traversal (the Python loop raises out of the whole `try` block on the
first bad access). -/
def mapOpt {α β : Type} (f : α → Option β) : List α → Option (List β)
  | [] => some []
  | a :: rest =>
    match f a, mapOpt f rest with
    | some b, some bs => some (b :: bs)
    | _, _ => none

/-- The body of `get_geometry_with_surface_ids` up to the `except` clause: kernel call,
triangle chunking, polygon construction and per-face material lookup.  Any failure
(kernel exception, malformed index buffer, bad vertex or material index) yields `none`,
which the caller reports as the `(None, None, None)` triple. -/
def extractPolys (w : World) (e : Nat) : Option (List (List ℚ) × List (Option Mat4)) := do
  let shape ← w.shapes e
  let tris ← chunk3 shape.faces
  let polys ← mapOpt (mkPoly w.georef shape.verts) tris
  let ml := materialsListOf shape.materials
  let fms ← mapOpt (faceMatAt shape.materialIds ml) (List.range tris.length)
  pure (polys, fms)

/-- The polygon list an element contributes, independent of the UUID supply. -/
def polyOf (w : World) (e : Nat) : Option (List (List ℚ)) :=
  (extractPolys w e).map (fun p => p.1)

/-- Python truthiness of the `polygons` value: a non-`None`, non-empty list. -/
def polysTruthy : Option (List (List ℚ)) → Bool
  | none => false
  | some l => !l.isEmpty

/-- `get_geometry_with_surface_ids(element)`: on success, polygons plus one fresh
surface UUID per polygon drawn from the counter `ctr`, and the per-face materials; on
any caught exception, the `(None, None, None)` triple.  Returns the advanced counter. -/
def getGeometryWithSurfaceIds (w : World) (e : Nat) (ctr : Nat) :
    (Option (List (List ℚ)) × Option (List Nat) × Option (List (Option Mat4))) × Nat :=
  match extractPolys w e with
  | none => ((none, none, none), ctr)
  | some (ps, fms) =>
    ((some ps, some ((List.range ps.length).map (fun i => ctr + i)), some fms),
      ctr + ps.length)

/-! ## Decomposition closure and storey resolvers -/

/-- Aggregation/nesting children of an entity, read through its `IsDecomposedBy`
relations. -/
def aggChildren (w : World) (e : Nat) : List Nat :=
  match findElem w e with
  | some el => (el.isDecomposedBy.filter (fun r => r.isAggOrNest)).flatMap
      (fun r => r.relatedObjects)
  | none => []

/-- Modelled from the spec: `ifcopenshell.util.element.get_decomposition` is an external
library routine, described by the spec as the transitive aggregation/nesting
decomposition of an entity (its aggregated/nested descendants, recursively).  The
recursion is fuel-bounded; the converter's call sites use the model size as fuel, which
covers any model-defined hierarchy depth. -/
def getDecompositionAux (w : World) : Nat → Nat → List Nat
  | 0, _ => []
  | fuel + 1, e =>
    (aggChildren w e).flatMap (fun c => c :: getDecompositionAux w fuel c)

/-- `set(ifcopenshell.util.element.get_decomposition(element))`, membership-wise. -/
def getDecomposition (w : World) (e : Nat) : List Nat :=
  getDecompositionAux w w.elements.length e

/-- The elements reported by the storey's `ContainsElements` relations
(`IfcRelContainedInSpatialStructure`). -/
def containedInStorey (storey : IfcElement) : List Nat :=
  (storey.containsElements.filter (fun r => r.isContainedRel)).flatMap
    (fun r => r.relatedElements)

/-- `_get_storey_elements(storey)` (lines 1620-1636): the set union of the decomposition
closure and the `ContainsElements`-related elements.  Set semantics: only membership is
ever consumed downstream. -/
def getStoreyElements (w : World) (storey : IfcElement) : List Nat :=
  getDecomposition w storey.eid ++ containedInStorey storey

/-- First phase of `_find_storey_for_element` (lines 1591-1605): scan the element's
`ContainedInStructure` relations; a storey is returned directly, and a building triggers
a scan of the element's own `Decomposes` relations for a storey parent. -/
def findStoreyViaContainment (w : World) (el : IfcElement) : Option IfcElement :=
  el.containedInStructure.findSome? (fun rel =>
    if rel.isContainedRel then
      match rel.relatingStructure.bind (findElem w) with
      | some rs =>
        if rs.cls == "IfcBuildingStorey" then some rs
        else if rs.cls == "IfcBuilding" then
          el.decomposes.findSome? (fun d =>
            if d.isAggOrNest then
              match d.relatingObject.bind (findElem w) with
              | some ro => if ro.cls == "IfcBuildingStorey" then some ro else none
              | none => none
            else none)
        else none
      | none => none
    else none)

/-- The first aggregation/nesting parent with a truthy `RelatingObject` (the relation at
which the second phase of `_find_storey_for_element` returns unconditionally). -/
def firstAggParent (w : World) (el : IfcElement) : Option IfcElement :=
  el.decomposes.findSome? (fun d =>
    if d.isAggOrNest then d.relatingObject.bind (findElem w) else none)

/-- `_find_storey_for_element(element)` (lines 1586-1618), fuel-bounded: containment
first, then the aggregation parent, recursing when that parent is not itself a storey.
Python recurses along the (finite, acyclic) containment hierarchy; the fuel covers any
depth up to its value. -/
def findStoreyForElement (w : World) : Nat → IfcElement → Option IfcElement
  | 0, _ => none
  | fuel + 1, el =>
    match findStoreyViaContainment w el with
    | some s => some s
    | none =>
      match firstAggParent w el with
      | some ro =>
        if ro.cls == "IfcBuildingStorey" then some ro
        else findStoreyForElement w fuel ro
      | none => none

/-! ## Document assembler state -/

/-- Kinds of emitted feature nodes, matching the CityGML element each code block
creates. -/
inductive FeatKind where
  | wall
  | constructive
  | installation
  | room
  | furniture
  | dummy
  | storey
  deriving DecidableEq, Repr

/-- An emitted feature node, keeping the observables of the claims: its gml:id, the
source element it speculates for (`none` for dummy buckets), whether a solid was
intended, whether a geometry child (`lod3Solid`/`lod3MultiSurface`) was emitted, the
embedded door/window fillings, and — for storeys — the xlink targets of the member
list in document order. -/
structure Feature where
  gmlId : Nat
  kind : FeatKind
  srcEid : Option Nat
  isSolid : Bool
  hasGeometry : Bool
  fillings : List Nat
  xlinks : List Nat
  deriving DecidableEq, Repr

/-- The generator's run-level mutable state: the UUID supply, `self.element_gml_ids`
(as an association list whose most recent binding wins, i.e. Python dict assignment),
and `self.exported_elements`. -/
structure GenState where
  nextId : Nat
  gmlIds : List (Nat × Nat)
  exported : List Nat
  deriving DecidableEq, Repr

/-- Dict lookup in `self.element_gml_ids` (first, i.e. most recent, binding). -/
def lookupGml (st : GenState) (e : Nat) : Option Nat :=
  (st.gmlIds.find? (fun p => p.1 == e)).map (fun p => p.2)

/-- Python `set.add`. -/
def addSet (l : List Nat) (x : Nat) : List Nat :=
  if l.contains x then l else l ++ [x]

/-- Per-building processing state: the run state, the building's child features in
document order, `embedded_doors_windows` and `dummy_bce_per_storey`. -/
structure BState where
  st : GenState
  feats : List Feature
  embedded : List Nat
  dummyMap : List (String × Nat)
  deriving DecidableEq, Repr

/-- UUID consumption of `_add_door_or_window_as_filling` (lines 272-336): the embedded
door/window runs its own geometry extraction (surface UUIDs) and takes one geometry
UUID when its polygons are truthy.  The filling node never receives a gml:id and never
touches `element_gml_ids` or `exported_elements`. -/
def fillingConsume (w : World) (ctr : Nat) (dw : Nat) : Nat :=
  let r := getGeometryWithSurfaceIds w dw ctr
  if polysTruthy r.1.1 then r.2 + 1 else r.2

/-- One element of the constructive/installation/room/furniture loops, which are
textually near-identical in the source; the differences are the feature kind, whether
embedded doors/windows are collected (walls and other constructive elements only), and
whether the speculative node is removed when no geometry resulted (all loops except the
wall loop, which has no `building.remove` branch).  Steps, in source order: create the
node and register its fresh gml:id; run geometry extraction; allocate the geometry UUID
and mark the element exported when the polygons are truthy; otherwise optionally remove
the node (the node just appended is the last building child at that point, hence
`dropLast`); finally collect fillings into the node and into
`embedded_doors_windows`. -/
def processElem (w : World) (kind : FeatKind) (withFillings removeIfEmpty : Bool)
    (bs : BState) (e : IfcElement) : BState :=
  let g := bs.st.nextId
  let st1 : GenState :=
    { nextId := g + 1, gmlIds := (e.eid, g) :: bs.st.gmlIds, exported := bs.st.exported }
  let isS := isIntendedSolid e.representation
  let r := getGeometryWithSurfaceIds w e.eid st1.nextId
  let hasGeom := polysTruthy r.1.1
  let st2 : GenState :=
    { st1 with
      nextId := if hasGeom then r.2 + 1 else r.2,
      exported := if hasGeom then addSet st1.exported e.eid else st1.exported }
  let dws := if withFillings then getDoorsAndWindowsInElement w e else []
  let st3 : GenState := { st2 with nextId := dws.foldl (fillingConsume w) st2.nextId }
  let feat : Feature :=
    { gmlId := g, kind := kind, srcEid := some e.eid, isSolid := isS,
      hasGeometry := hasGeom, fillings := dws, xlinks := [] }
  let feats1 := bs.feats ++ [feat]
  let feats2 := if removeIfEmpty && !hasGeom then feats1.dropLast else feats1
  { st := st3, feats := feats2, embedded := dws.foldl addSet bs.embedded,
    dummyMap := bs.dummyMap }

/-- A loop over the elements of one entity type. -/
def processPhase (w : World) (kind : FeatKind) (withFillings removeIfEmpty : Bool)
    (bs : BState) (es : List IfcElement) : BState :=
  es.foldl (processElem w kind withFillings removeIfEmpty) bs

/-- `building_ifc_elements[t]`: the elements of exact type `t` belonging to the
building. -/
def selectExact (w : World) (bel : List Nat) (t : String) : List IfcElement :=
  (byType w t).filter (fun e => bel.contains e.eid)

/-- The wall types processed first (lines 955). -/
def wallTypes : List String := ["IfcWall", "IfcWallStandardCase"]

/-- The remaining constructive types (lines 1041-1045). -/
def constructiveTypes : List String :=
  ["IfcRoof", "IfcSlab", "IfcColumn", "IfcBeam", "IfcMember", "IfcPlate",
   "IfcStair", "IfcStairFlight", "IfcRamp", "IfcRampFlight",
   "IfcFooting", "IfcPile", "IfcBuildingElementProxy", "IfcCurtainWall"]

/-- The installation types (line 1242). -/
def installationTypes : List String := ["IfcCovering", "IfcRailing"]

/-- The furniture types (line 1383). -/
def furnitureTypes : List String :=
  ["IfcFurniture", "IfcSystemFurnitureElement", "IfcFurnishingElement"]

/-- The types a storey emits member xlinks for (lines 1492-1498). -/
def allElementTypes : List String :=
  ["IfcWall", "IfcWallStandardCase", "IfcRoof", "IfcSlab", "IfcColumn", "IfcBeam",
   "IfcMember", "IfcPlate", "IfcStair", "IfcStairFlight", "IfcRamp", "IfcRampFlight",
   "IfcFooting", "IfcPile", "IfcBuildingElementProxy",
   "IfcCurtainWall", "IfcCovering", "IfcRailing",
   "IfcFurniture", "IfcSystemFurnitureElement", "IfcFurnishingElement"]

/-- Append an unmapped door/window under its storey's GlobalId
(`doors_windows_by_storey`, insertion-ordered, lines 1165-1174). -/
def addGroupEntry : List (String × List Nat) → String → Nat → List (String × List Nat)
  | [], k, e => [(k, [e])]
  | (k', es) :: rest, k, e =>
    if k = k' then (k', es ++ [e]) :: rest else (k', es) :: addGroupEntry rest k e

/-- Create one dummy `BuildingConstructiveElement` holding the given fillings and
register its gml:id in `dummy_bce_per_storey` under `key` (lines 1179-1238). -/
def mkDummyBce (w : World) (key : String) (elems : List Nat) (bs : BState) : BState :=
  let g := bs.st.nextId
  let ctr := elems.foldl (fillingConsume w) (g + 1)
  { st := { bs.st with nextId := ctr },
    feats := bs.feats ++
      [{ gmlId := g, kind := .dummy, srcEid := none, isSolid := false,
         hasGeometry := false, fillings := elems, xlinks := [] }],
    embedded := bs.embedded,
    dummyMap := bs.dummyMap ++ [(key, g)] }

/-- `building_doors_windows` (lines 1133-1135): the doors then the windows of this
building, in model order. -/
def buildingDoorsWindows (w : World) (bel : List Nat) : List IfcElement :=
  (byType w "IfcDoor").filter (fun e => bel.contains e.eid) ++
    (byType w "IfcWindow").filter (fun e => bel.contains e.eid)

/-- `unmapped` (lines 1155/1160): the building's doors/windows never embedded during
host iteration. -/
def unmappedDws (w : World) (bel : List Nat) (embedded : List Nat) : List IfcElement :=
  (buildingDoorsWindows w bel).filter (fun e => !embedded.contains e.eid)

/-- `doors_windows_by_storey` plus `unmapped_without_storey` (lines 1164-1176): group
the unmapped openings by their resolved storey's GlobalId, keeping the storey-less ones
aside; an opening whose storey has a falsy GlobalId is silently dropped, as in the
source. -/
def groupByStorey (w : World) (unmapped : List IfcElement) :
    List (String × List Nat) × List Nat :=
  unmapped.foldl (fun (acc : List (String × List Nat) × List Nat) dw =>
    match findStoreyForElement w w.elements.length dw with
    | some s =>
      if !(s.guid == "") then (addGroupEntry acc.1 s.guid dw.eid, acc.2) else acc
    | none => (acc.1, acc.2 ++ [dw.eid])) ([], [])

/-- Create the per-storey dummy buckets in group order, then the fallback bucket when
some opening resolved to no storey (lines 1178-1238). -/
def makeDummies (w : World) (grouped : List (String × List Nat) × List Nat)
    (bs : BState) : BState :=
  if !grouped.2.isEmpty then
    mkDummyBce w "__UNMAPPED__" grouped.2
      (grouped.1.foldl (fun bs p => mkDummyBce w p.1 p.2 bs) bs)
  else grouped.1.foldl (fun bs p => mkDummyBce w p.1 p.2 bs) bs

/-- The unmapped-door/window accounting block (lines 1131-1239).  Listing unmapped
elements is console-only; state changes happen only when the dummy-bucket option is on
and some door/window of the building was not embedded during host iteration.  The
`unmapped_count` gate is the source's arithmetic
`len(building_doors_windows) - len(embedded_doors_windows) > 0`. -/
def unmappedPhase (w : World) (cfg : Config) (bel : List Nat) (bs : BState) : BState :=
  if !cfg.unrelatedDummy then bs
  else if (buildingDoorsWindows w bel).length > 0 &&
      decide (0 < ((buildingDoorsWindows w bel).length : ℤ) - (bs.embedded.length : ℤ)) then
    if !(unmappedDws w bel bs.embedded).isEmpty then
      makeDummies w (groupByStorey w (unmappedDws w bel bs.embedded)) bs
    else bs
  else bs

/-- The guard of lines 1510-1513 and 1528-1531: a reference is produced only when the
element is registered in `element_gml_ids` and is in `exported_elements`, and it
carries the registered gml:id. -/
def xlinkGuard (st : GenState) (e : Nat) : Option Nat :=
  match lookupGml st e with
  | some g => if st.exported.contains e then some g else none
  | none => none

/-- The guarded element references of one storey, in type order (lines 1500-1513). -/
def storeyElemXlinks (w : World) (bel : List Nat) (st : GenState)
    (selems : List Nat) : List Nat :=
  allElementTypes.flatMap (fun ty =>
    ((byType w ty).filter
        (fun e => bel.contains e.eid && selems.contains e.eid)).filterMap
      (fun e => xlinkGuard st e.eid))

/-- The storey's dummy-bucket reference, when one was created for its GlobalId
(lines 1515-1522). -/
def storeyDummyXlink (dummyMap : List (String × Nat)) (storey : IfcElement) :
    List Nat :=
  if !(storey.guid == "") then
    match (dummyMap.find? (fun p => p.1 == storey.guid)).map (fun p => p.2) with
    | some gd => [gd]
    | none => []
  else []

/-- The guarded room references of one storey (lines 1524-1531). -/
def storeyRoomXlinks (roomsList : List IfcElement) (st : GenState)
    (selems : List Nat) : List Nat :=
  roomsList.filterMap (fun room =>
    if selems.contains room.eid then xlinkGuard st room.eid else none)

/-- The member xlinks of one storey (lines 1486-1531): guarded element references in
type order, then the storey's dummy-bucket reference, then guarded room references. -/
def storeyXlinks (w : World) (bel : List Nat) (roomsList : List IfcElement)
    (st : GenState) (dummyMap : List (String × Nat)) (storey : IfcElement) : List Nat :=
  storeyElemXlinks w bel st (getStoreyElements w storey) ++
    storeyDummyXlink dummyMap storey ++
    storeyRoomXlinks roomsList st (getStoreyElements w storey)

/-- Emit one storey feature with a fresh gml:id and its member xlinks. -/
def storeyStep (w : World) (bel : List Nat) (roomsList : List IfcElement)
    (bs : BState) (storey : IfcElement) : BState :=
  let g := bs.st.nextId
  let st1 : GenState := { bs.st with nextId := g + 1 }
  let xs := storeyXlinks w bel roomsList st1 bs.dummyMap storey
  { bs with
    st := st1
    feats := bs.feats ++
      [{ gmlId := g, kind := .storey, srcEid := some storey.eid, isSolid := false,
         hasGeometry := false, fillings := [], xlinks := xs }] }

/-- The storey export block (lines 1456-1534). -/
def storeyPhase (w : World) (bel : List Nat) (roomsList : List IfcElement)
    (bs : BState) : BState :=
  ((byType w "IfcBuildingStorey").filter (fun e => bel.contains e.eid)).foldl
    (storeyStep w bel roomsList) bs

/-- The wall loops (lines 954-1038): both wall types, with embedded openings, without a
removal branch. -/
def wallsPhase (w : World) (bel : List Nat) (bs : BState) : BState :=
  wallTypes.foldl (fun bs t => processPhase w .wall true false bs (selectExact w bel t)) bs

/-- The remaining constructive loops (lines 1040-1129): with embedded openings and with
the removal branch. -/
def constructivesPhase (w : World) (bel : List Nat) (bs : BState) : BState :=
  constructiveTypes.foldl
    (fun bs t => processPhase w .constructive true true bs (selectExact w bel t)) bs

/-- The installation loops (lines 1241-1311): no embedded openings, removal branch. -/
def installationsPhase (w : World) (bel : List Nat) (bs : BState) : BState :=
  installationTypes.foldl
    (fun bs t => processPhase w .installation false true bs (selectExact w bel t)) bs

/-- The furniture loops (lines 1382-1452): no embedded openings, removal branch. -/
def furniturePhase (w : World) (bel : List Nat) (bs : BState) : BState :=
  furnitureTypes.foldl
    (fun bs t => processPhase w .furniture false true bs (selectExact w bel t)) bs

/-- The per-building phases before storey export, in source order: walls, remaining
constructive elements, unmapped-opening accounting, installations, rooms
(lines 1313-1380: removal branch, no embedded openings), furniture. -/
def buildingBody (w : World) (cfg : Config) (bel : List Nat)
    (roomsList : List IfcElement) (bs : BState) : BState :=
  furniturePhase w bel
    (processPhase w .room false true
      (installationsPhase w bel
        (unmappedPhase w cfg bel
          (constructivesPhase w bel
            (wallsPhase w bel bs))))
      roomsList)

/-- `rooms_list` (lines 934-938): the spaces belonging to this building. -/
def roomsOf (w : World) (bel : List Nat) : List IfcElement :=
  (byType w "IfcSpace").filter (fun e => bel.contains e.eid)

/-- `generate`'s per-building body as a state transformer (lines 895-1538): reset
`exported_elements` (and only it — `element_gml_ids` is initialized once in `__init__`
and never cleared), compute the building's member set, then run the phases in the
schema-dictated order: walls (with embedded openings), remaining constructive elements,
unmapped-opening accounting, installations, rooms, furniture, and — unless suppressed —
storeys. -/
def processBuildingBState (w : World) (cfg : Config) (st0 : GenState) (b : IfcElement) :
    BState :=
  if cfg.noStoreys then
    buildingBody w cfg (getDecomposition w b.eid) (roomsOf w (getDecomposition w b.eid))
      ⟨{ st0 with exported := [] }, [], [], []⟩
  else
    storeyPhase w (getDecomposition w b.eid) (roomsOf w (getDecomposition w b.eid))
      (buildingBody w cfg (getDecomposition w b.eid)
        (roomsOf w (getDecomposition w b.eid))
        ⟨{ st0 with exported := [] }, [], [], []⟩)

/-- One building's processing: the run state afterwards and the building's child
features in document order. -/
def processBuilding (w : World) (cfg : Config) (st0 : GenState) (b : IfcElement) :
    GenState × List Feature :=
  ((processBuildingBState w cfg st0 b).st, (processBuildingBState w cfg st0 b).feats)

/-- The whole run over the model's buildings (lines 849-1541): each building is
processed in turn against the persisting run state. -/
def runBuildings (w : World) (cfg : Config) (st : GenState) :
    List IfcElement → GenState × List (List Feature)
  | [] => (st, [])
  | b :: rest =>
    let r := processBuilding w cfg st b
    let rec' := runBuildings w cfg r.1 rest
    (rec'.1, r.2 :: rec'.2)

/-- `generate()` from a fresh generator: all `IfcBuilding` entities, initial state. -/
def generateModel (w : World) (cfg : Config) : GenState × List (List Feature) :=
  runBuildings w cfg ⟨0, [], []⟩ (byType w "IfcBuilding")

/-! ## Claim-side definitions for the geometry classifier (refinement comparison) -/

/-- The claim's selection rule, following the claim's words: a sub-representation is
considered when its identifier is absent or, case-insensitively, one of the three body
aliases. -/
def claimConsidersSubRep (r : SubRep) : Bool :=
  match r.representationIdentifier with
  | none => true
  | some s => ["body", "mesh", "facetedbrep"].contains (strLower s)

/-- The classifier as the claim states it. -/
def claimIsIntendedSolid (representation : Option (List SubRep)) : Bool :=
  match representation with
  | none => false
  | some reps => reps.any (fun r =>
      claimConsidersSubRep r &&
        (match r.representationType with
         | some t => SOLID_REPRESENTATION_TYPES.contains t
         | none => false))

/-- The amended selection rule: the identifier may also be present but empty (a falsy
Python string), which the source does not skip. -/
def amendedConsidersSubRep (r : SubRep) : Bool :=
  match r.representationIdentifier with
  | none => true
  | some s => s == "" || ["body", "mesh", "facetedbrep"].contains (strLower s)

/-- The classifier as amended. -/
def amendedIsIntendedSolid (representation : Option (List SubRep)) : Bool :=
  match representation with
  | none => false
  | some reps => reps.any (fun r =>
      amendedConsidersSubRep r &&
        (match r.representationType with
         | some t => SOLID_REPRESENTATION_TYPES.contains t
         | none => false))

/-! ## Registry invariants -/

/-- Every registered gml:id is below the UUID counter. -/
def IdBound (st : GenState) : Prop :=
  ∀ p ∈ st.gmlIds, p.2 < st.nextId

/-- Distinct elements never share a gml:id (value-injectivity over every binding,
shadowed ones included). -/
def IdInj (st : GenState) : Prop :=
  ∀ p ∈ st.gmlIds, ∀ q ∈ st.gmlIds, p.2 = q.2 → p.1 = q.1

/-- The registry invariant maintained by the run. -/
def IdInv (st : GenState) : Prop :=
  IdBound st ∧ IdInj st

/-- Every confirmed-emitted element produced a truthy polygon list. -/
def ExpSound (w : World) (st : GenState) : Prop :=
  ∀ e ∈ st.exported, polysTruthy (polyOf w e) = true

/-- Dummy-bucket gml:ids are below the counter and differ from every element gml:id. -/
def DummyFresh (bs : BState) : Prop :=
  ∀ d ∈ bs.dummyMap, d.2 < bs.st.nextId ∧ ∀ p ∈ bs.st.gmlIds, p.2 ≠ d.2

/-- The combined per-building invariant. -/
def BInv (w : World) (bs : BState) : Prop :=
  IdInv bs.st ∧ ExpSound w bs.st ∧ DummyFresh bs

/-! ## Concrete instances used by counterexamples and witnesses -/

/-- An entity with no attributes set, for building concrete models. -/
def baseElem : IfcElement :=
  { eid := 0, cls := "", guid := "", representation := none, hasOpenings := [],
    hasFillings := [], containedInStructure := [], decomposes := [],
    containsElements := [], isDecomposedBy := [] }

/-- Identity georeference (scale 1, identity rotation, zero translation). -/
def georefId : Georef :=
  { scale := 1, rot := ((1, 0, 0), (0, 1, 0), (0, 0, 1)), eastings := 0, northings := 0,
    orthogonalHeight := 0, xoffset := 0, yoffset := 0, zoffset := 0 }

/-- A kernel mesh with a single triangle and no material data. -/
def triShape : RawShape :=
  { verts := [(0, 0, 0), (1, 0, 0), (0, 1, 0)], faces := [0, 1, 2], materials := [],
    materialIds := [] }

/-- Default configuration: no dummy buckets, storeys exported. -/
def cfgDefault : Config := { unrelatedDummy := false, noStoreys := false }

/-- One building (entity 0) aggregating a wall (entity 1) and a storey (entity 2); the
storey contains the wall via `ContainsElements`; the kernel succeeds on the wall with
one triangle. -/
def worldStorey : World :=
  { elements :=
      [{ baseElem with
           eid := 0
           cls := "IfcBuilding"
           isDecomposedBy := [{ isAggOrNest := true, relatedObjects := [1, 2] }] },
       { baseElem with eid := 1, cls := "IfcWall" },
       { baseElem with
           eid := 2
           cls := "IfcBuildingStorey"
           guid := "S1"
           containsElements := [{ isContainedRel := true, relatedElements := [1] }] }],
    shapes := fun e => if e == 1 then some triShape else none,
    georef := georefId }

/-- The building entity of `worldStorey`. -/
def bldgStorey : IfcElement :=
  { baseElem with
    eid := 0
    cls := "IfcBuilding"
    isDecomposedBy := [{ isAggOrNest := true, relatedObjects := [1, 2] }] }

/-- One building (entity 0) aggregating a wall (entity 1) whose geometry extraction
fails (`create_shape` raises). -/
def worldFailingWall : World :=
  { elements :=
      [{ baseElem with
           eid := 0
           cls := "IfcBuilding"
           isDecomposedBy := [{ isAggOrNest := true, relatedObjects := [1] }] },
       { baseElem with eid := 1, cls := "IfcWall" }],
    shapes := fun _ => none,
    georef := georefId }

/-- The building entity of `worldFailingWall`. -/
def bldgFailingWall : IfcElement :=
  { baseElem with
    eid := 0
    cls := "IfcBuilding"
    isDecomposedBy := [{ isAggOrNest := true, relatedObjects := [1] }] }

/-- Two buildings: entity 0 aggregates a wall (entity 1); entity 3 is a second building
with no members.  All geometry extraction fails. -/
def worldTwoBuildings : World :=
  { elements :=
      [{ baseElem with
           eid := 0
           cls := "IfcBuilding"
           isDecomposedBy := [{ isAggOrNest := true, relatedObjects := [1] }] },
       { baseElem with eid := 1, cls := "IfcWall" },
       { baseElem with eid := 3, cls := "IfcBuilding" }],
    shapes := fun _ => none,
    georef := georefId }

/-- A host wall (entity 10) with two distinct void relations to two distinct openings
(entities 11, 12), both filled by the same door (entity 13). -/
def worldSharedDoor : World :=
  { elements :=
      [{ baseElem with
           eid := 10
           cls := "IfcWall"
           hasOpenings := [{ isVoidsRel := true, relatedOpening := some 11 },
                           { isVoidsRel := true, relatedOpening := some 12 }] },
       { baseElem with
           eid := 11
           cls := "IfcOpeningElement"
           hasFillings := [{ isFillsRel := true, relatedBuildingElement := some 13 }] },
       { baseElem with
           eid := 12
           cls := "IfcOpeningElement"
           hasFillings := [{ isFillsRel := true, relatedBuildingElement := some 13 }] },
       { baseElem with eid := 13, cls := "IfcDoor" }],
    shapes := fun _ => none,
    georef := georefId }

/-- The host wall of `worldSharedDoor`. -/
def hostSharedDoor : IfcElement :=
  { baseElem with
    eid := 10
    cls := "IfcWall"
    hasOpenings := [{ isVoidsRel := true, relatedOpening := some 11 },
                    { isVoidsRel := true, relatedOpening := some 12 }] }

/-- The storey entity of `worldStorey`. -/
def storeyOfWorldStorey : IfcElement :=
  { baseElem with
    eid := 2
    cls := "IfcBuildingStorey"
    guid := "S1"
    containsElements := [{ isContainedRel := true, relatedElements := [1] }] }

/-- A kernel mesh with two triangles over the same three vertices, a two-entry material
table, and one material per triangle. -/
def twoTriangleShape : RawShape :=
  { verts := [(0, 0, 0), (1, 0, 0), (0, 1, 0)], faces := [0, 1, 2, 0, 1, 2],
    materials := [{ diffuse := some (1, 0, 0), transparency := none },
                  { diffuse := some (0, 1, 0), transparency := none }],
    materialIds := [0, 1] }

/-- A world whose element 1 extracts to the two-triangle mesh. -/
def worldTwoTriangles : World :=
  { elements := [], shapes := fun e => if e == 1 then some twoTriangleShape else none,
    georef := georefId }

/-- The polygons `extractPolys` produces for the two-triangle mesh. -/
def twoTrianglePolys : List (List ℚ) :=
  [[0, 0, 0, 1, 0, 0, 0, 1, 0, 0, 0, 0], [0, 0, 0, 1, 0, 0, 0, 1, 0, 0, 0, 0]]

/-- The per-face materials `extractPolys` produces for the two-triangle mesh. -/
def twoTriangleMats : List (Option Mat4) :=
  [some (1, 0, 0, 0), some (0, 1, 0, 0)]

/-! # Theorems -/

/-! ## C10: generic-attribute type dispatch -/

/-- C10: for every property value written by the generic-attribute writer, a Python
bool produces an `IntAttribute` with value text "1"/"0" (the bool case is dispatched
before the int case: in this embedding bools are a constructor of their own and never
reach the int branch), a float produces a `DoubleAttribute`, a non-bool int produces an
`IntAttribute` with text `str(value)`, and every other value produces a
`StringAttribute` containing `str(value)`. -/
theorem c10_generic_attribute_dispatch (name : String) (b : Bool) (i : ℤ) (q : ℚ)
    (s text : String) :
    addGenericAttributeValue name (.pybool b) false none =
      .intAttr name (if b then "1" else "0") ∧
    addGenericAttributeValue name (.pyfloat q) false none =
      .doubleAttr name (pyStr (.pyfloat q)) ∧
    addGenericAttributeValue name (.pyint i) false none =
      .intAttr name (pyStr (.pyint i)) ∧
    addGenericAttributeValue name (.pystr s) false none =
      .stringAttr name (pyStr (.pystr s)) ∧
    addGenericAttributeValue name (.pyother text) false none =
      .stringAttr name (pyStr (.pyother text)) :=
  ⟨rfl, rfl, rfl, rfl, rfl⟩

/-! ## C6: geometry classifier -/

/-- C6 counterexample: a sub-representation whose identifier is present but empty (a
falsy Python string) is not skipped by the source — `if rid and ...` falls through — so
the classifier returns `true` for a solid type, while the claim's algorithm (identifier
absent or an alias) returns `false`. -/
theorem c6_counterexample :
    isIntendedSolid
        (some [{ representationIdentifier := some "", representationType := some "Brep" }]) = true ∧
    claimIsIntendedSolid
        (some [{ representationIdentifier := some "", representationType := some "Brep" }]) = false := by
  refine ⟨rfl, ?_⟩
  decide

/-- C6 amended: the classifier returns `false` without a representation, and otherwise
returns `true` iff some sub-representation whose identifier is absent, empty, or
case-insensitively one of "body"/"mesh"/"facetedbrep" has a representation type in the
solid-type set. -/
theorem c6_classifier_amended (representation : Option (List SubRep)) :
    isIntendedSolid representation = amendedIsIntendedSolid representation := by
  cases representation with
  | none => rfl
  | some reps =>
    show reps.any subRepPasses = reps.any _
    congr 1
    funext r
    show subRepPasses r = _
    cases h : r.representationIdentifier with
    | none =>
      simp [subRepPasses, amendedConsidersSubRep, h]
    | some s =>
      by_cases he : s == ""
      · simp [subRepPasses, amendedConsidersSubRep, h, he]
      · by_cases hc : (["body", "mesh", "facetedbrep"].contains s.toLower)
        · simp [subRepPasses, amendedConsidersSubRep, h, he, hc]
        · simp [subRepPasses, amendedConsidersSubRep, h, he, hc]

/-! ## C3: opening/filling resolver multiplicity -/

/-- Helper: occurrences in a concatenation over a list are the sum of the per-piece
occurrences. -/
theorem count_flatMap (l : List VoidRel) (f : VoidRel → List Nat) (e : Nat) :
    (l.flatMap f).count e = (l.map (fun a => (f a).count e)).sum := by
  induction l with
  | nil => rfl
  | cons a rest ih =>
    simp [List.flatMap_cons, List.count_append, ih]

/-- C3 counterexample: a host with two distinct void relations to two distinct
openings, both filled by the same door, makes the resolver return that door twice —
there is no deduplication by identity. -/
theorem c3_counterexample :
    (getDoorsAndWindowsInElement worldSharedDoor hostSharedDoor).count 13 = 2 := by
  decide

/-- Helper: occurrences of `e` in a `filterMap` are the qualifying inputs. -/
theorem count_filterMap_eq_length_filter {α : Type} (l : List α) (f : α → Option Nat)
    (e : Nat) :
    ((l.filterMap f).count e) = (l.filter (fun a => f a == some e)).length := by
  induction l with
  | nil => rfl
  | cons a rest ih =>
    cases h : f a with
    | none =>
      simp [List.filterMap_cons, List.filter_cons, h, ih]
    | some b =>
      by_cases hb : b = e
      · subst hb
        simp [List.filterMap_cons, List.filter_cons, h, ih, List.count_cons]
      · simp [List.filterMap_cons, List.filter_cons, h, ih, List.count_cons, hb]

/-- Helper: per void relation, the occurrences of `e` among the produced fillings are
exactly the qualifying fill relations of the opening it reaches. -/
theorem count_fillingsOfVoidRel (w : World) (vr : VoidRel) (e : Nat) :
    (fillingsOfVoidRel w vr).count e =
      (if vr.isVoidsRel then
        match vr.relatedOpening.bind (findElem w) with
        | some op =>
          if op.cls == "IfcOpeningElement" then
            (op.hasFillings.filter (fillRelReaches w e)).length
          else 0
        | none => 0
      else 0) := by
  unfold fillingsOfVoidRel
  by_cases hv : vr.isVoidsRel
  · simp only [hv, if_true]
    cases hop : vr.relatedOpening.bind (findElem w) with
    | none => rfl
    | some op =>
      by_cases hcls : op.cls == "IfcOpeningElement"
      · simp only [hcls, if_true]
        rw [count_filterMap_eq_length_filter]
        congr 1
        apply List.filter_congr
        intro fr _
        unfold fillRelReaches
        by_cases hf : fr.isFillsRel
        · simp only [hf, if_true, Bool.true_and]
          cases hrel : fr.relatedBuildingElement.bind (findElem w) with
          | none => simp
          | some f =>
            by_cases hdw : (f.cls == "IfcDoor" || f.cls == "IfcWindow")
            · simp only [hdw, if_true]
              by_cases he : f.eid = e
              · subst he
                simp [hdw]
              · simp [he, Ne.symm he, hdw]
            · simp [hdw]
        · simp [hf]
      · simp [hcls]
  · simp [hv]

/-- C3 amended: the resolver returns each filling element once per qualifying
(void-relation, fill-relation) path from the host, in traversal order; an element
reachable through two distinct void relations is therefore returned twice, not once. -/
theorem c3_resolver_multiplicity (w : World) (host : IfcElement) (e : Nat) :
    (getDoorsAndWindowsInElement w host).count e = fillPathCount w host e := by
  unfold getDoorsAndWindowsInElement fillPathCount
  rw [count_flatMap]
  congr 1
  apply List.map_congr_left
  intro vr _
  exact count_fillingsOfVoidRel w vr e

/-! ## C5 and C8: face-material grouping -/

/-- Helper: membership in the buckets after one insertion. -/
theorem mem_addToGroup (acc : List (Mat4 × List Nat)) (k : Mat4) (i : Nat) (k' : Mat4)
    (j : Nat) :
    (∃ is', (k', is') ∈ addToGroup acc k i ∧ j ∈ is') ↔
      (∃ is', (k', is') ∈ acc ∧ j ∈ is') ∨ (k' = k ∧ j = i) := by
  induction acc with
  | nil =>
    constructor
    · rintro ⟨is', hmem, hj⟩
      simp only [addToGroup, List.mem_singleton, Prod.mk.injEq] at hmem
      rw [hmem.2] at hj
      simp only [List.mem_singleton] at hj
      exact Or.inr ⟨hmem.1, hj⟩
    · rintro (⟨is', hmem, hj⟩ | ⟨hk, hj⟩)
      · simp at hmem
      · exact ⟨[i], by simp [addToGroup, hk], by simp [hj]⟩
  | cons p rest ih =>
    obtain ⟨k0, is0⟩ := p
    by_cases hk : k = k0
    · simp only [addToGroup, if_pos hk]
      constructor
      · rintro ⟨is', hmem, hj⟩
        rcases List.mem_cons.1 hmem with heq | hrest
        · obtain ⟨hk', his⟩ := Prod.mk.injEq .. ▸ heq
          rw [his] at hj
          rcases List.mem_append.1 hj with hj0 | hj1
          · refine Or.inl ⟨is0, ?_, hj0⟩
            rw [hk']
            exact List.mem_cons_self _ _
          · simp only [List.mem_singleton] at hj1
            exact Or.inr ⟨hk'.trans hk.symm, hj1⟩
        · exact Or.inl ⟨is', List.mem_cons_of_mem _ hrest, hj⟩
      · rintro (⟨is', hmem, hj⟩ | ⟨hk', hj⟩)
        · rcases List.mem_cons.1 hmem with heq | hrest
          · obtain ⟨hk', his⟩ := Prod.mk.injEq .. ▸ heq
            refine ⟨is0 ++ [i], ?_, ?_⟩
            · rw [hk']
              exact List.mem_cons_self _ _
            · rw [← his]
              exact List.mem_append_left _ hj
          · exact ⟨is', List.mem_cons_of_mem _ hrest, hj⟩
        · refine ⟨is0 ++ [i], ?_, ?_⟩
          · rw [hk'.trans hk]
            exact List.mem_cons_self _ _
          · rw [hj]
            exact List.mem_append_right _ (by simp)
    · simp only [addToGroup, if_neg hk]
      constructor
      · rintro ⟨is', hmem, hj⟩
        rcases List.mem_cons.1 hmem with heq | hrest
        · exact Or.inl ⟨is', List.mem_cons.2 (Or.inl heq), hj⟩
        · rcases ih.1 ⟨is', hrest, hj⟩ with ⟨is'', hmem'', hj''⟩ | hnew
          · exact Or.inl ⟨is'', List.mem_cons_of_mem _ hmem'', hj''⟩
          · exact Or.inr hnew
      · rintro (⟨is', hmem, hj⟩ | ⟨hk', hj⟩)
        · rcases List.mem_cons.1 hmem with heq | hrest
          · exact ⟨is', List.mem_cons.2 (Or.inl heq), hj⟩
          · obtain ⟨is'', hmem'', hj''⟩ := ih.2 (Or.inl ⟨is', hrest, hj⟩)
            exact ⟨is'', List.mem_cons_of_mem _ hmem'', hj''⟩
        · obtain ⟨is'', hmem'', hj''⟩ := ih.2 (Or.inr ⟨hk', hj⟩)
          exact ⟨is'', List.mem_cons_of_mem _ hmem'', hj''⟩

/-- Helper: bucket membership over the whole grouping loop. -/
theorem mem_groupFacesAux (ps : List (Nat × Option Mat4)) (acc : List (Mat4 × List Nat))
    (k : Mat4) (j : Nat) :
    (∃ is', (k, is') ∈ groupFacesAux ps acc ∧ j ∈ is') ↔
      (∃ is', (k, is') ∈ acc ∧ j ∈ is') ∨
        ∃ m, (j, some m) ∈ ps ∧ materialKey m = k := by
  induction ps generalizing acc with
  | nil => simp [groupFacesAux]
  | cons p rest ih =>
    obtain ⟨i, mo⟩ := p
    cases mo with
    | none =>
      rw [show groupFacesAux ((i, none) :: rest) acc = groupFacesAux rest acc from rfl, ih]
      constructor
      · rintro (hold | ⟨m, hm, hkey⟩)
        · exact Or.inl hold
        · exact Or.inr ⟨m, List.mem_cons_of_mem _ hm, hkey⟩
      · rintro (hold | ⟨m, hm, hkey⟩)
        · exact Or.inl hold
        · rcases List.mem_cons.1 hm with heq | hrest
          · exact absurd (congrArg Prod.snd heq) (by simp)
          · exact Or.inr ⟨m, hrest, hkey⟩
    | some m =>
      rw [show groupFacesAux ((i, some m) :: rest) acc =
            groupFacesAux rest (addToGroup acc (materialKey m) i) from rfl, ih,
        mem_addToGroup]
      constructor
      · rintro ((hold | ⟨hk, hj⟩) | ⟨m', hm', hkey⟩)
        · exact Or.inl hold
        · subst hj
          exact Or.inr ⟨m, List.mem_cons_self _ _, hk.symm⟩
        · exact Or.inr ⟨m', List.mem_cons_of_mem _ hm', hkey⟩
      · rintro (hold | ⟨m', hm', hkey⟩)
        · exact Or.inl (Or.inl hold)
        · rcases List.mem_cons.1 hm' with heq | hrest
          · obtain ⟨hj, hm⟩ := Prod.mk.injEq .. ▸ heq
            obtain rfl : m' = m := Option.some.inj hm
            exact Or.inl (Or.inr ⟨hkey.symm, hj⟩)
          · exact Or.inr ⟨m', hrest, hkey⟩

/-- Helper: bucket membership in `groupFaces` is exactly "this face has this rounded
material". -/
theorem mem_groupFaces (fm : List (Option Mat4)) (k : Mat4) (j : Nat) :
    (∃ is', (k, is') ∈ groupFaces fm ∧ j ∈ is') ↔
      ∃ m, fm.get? j = some (some m) ∧ materialKey m = k := by
  rw [groupFaces, mem_groupFacesAux]
  constructor
  · rintro (⟨is', hmem, _⟩ | ⟨m, hm, hkey⟩)
    · simp at hmem
    · refine ⟨m, ?_, hkey⟩
      have := List.mem_enum_iff_getElem?.1 hm
      rw [List.get?_eq_getElem?]
      exact this
  · rintro ⟨m, hget, hkey⟩
    refine Or.inr ⟨m, ?_, hkey⟩
    refine List.mem_enum_iff_getElem?.2 ?_
    rw [← List.get?_eq_getElem?]
    exact hget

/-- Helper: keys of the buckets after one insertion. -/
theorem key_mem_addToGroup (acc : List (Mat4 × List Nat)) (k : Mat4) (i : Nat) :
    ∀ p ∈ addToGroup acc k i, p.1 = k ∨ p.1 ∈ acc.map Prod.fst := by
  induction acc with
  | nil =>
    intro p hp
    simp only [addToGroup, List.mem_singleton] at hp
    exact Or.inl (congrArg Prod.fst hp)
  | cons q rest ih =>
    obtain ⟨k0, is0⟩ := q
    intro p hp
    by_cases hk : k = k0
    · subst hk
      simp only [addToGroup, if_pos rfl] at hp
      rcases List.mem_cons.1 hp with heq | hrest
      · exact Or.inl (congrArg Prod.fst heq)
      · exact Or.inr (by simpa using Or.inr (List.mem_map_of_mem Prod.fst hrest))
    · simp only [addToGroup, if_neg hk] at hp
      rcases List.mem_cons.1 hp with heq | hrest
      · subst heq
        exact Or.inr (by simp)
      · rcases ih p hrest with h | h
        · exact Or.inl h
        · exact Or.inr (by simpa using Or.inr h)

/-- Helper: one insertion preserves pairwise-distinct bucket keys. -/
theorem pairwiseKeys_addToGroup (acc : List (Mat4 × List Nat)) (k : Mat4) (i : Nat)
    (h : acc.Pairwise (fun g h' => g.1 ≠ h'.1)) :
    (addToGroup acc k i).Pairwise (fun g h' => g.1 ≠ h'.1) := by
  induction acc with
  | nil => simp [addToGroup]
  | cons q rest ih =>
    obtain ⟨k0, is0⟩ := q
    obtain ⟨hq, hrest⟩ := List.pairwise_cons.1 h
    by_cases hk : k = k0
    · subst hk
      simp only [addToGroup, if_pos rfl]
      exact List.pairwise_cons.2 ⟨fun p hp => hq p hp, hrest⟩
    · simp only [addToGroup, if_neg hk]
      refine List.pairwise_cons.2 ⟨?_, ih hrest⟩
      intro p hp
      rcases key_mem_addToGroup rest k i p hp with h1 | h1
      · exact fun hc => hk ((hc.trans h1).symm ▸ rfl)
      · obtain ⟨q', hq', hfst⟩ := List.mem_map.1 h1
        exact fun hc => (hq q' hq') (hc.trans hfst.symm)

/-- Helper: the grouping loop preserves pairwise-distinct bucket keys. -/
theorem pairwiseKeys_groupFacesAux (ps : List (Nat × Option Mat4))
    (acc : List (Mat4 × List Nat)) (h : acc.Pairwise (fun g h' => g.1 ≠ h'.1)) :
    (groupFacesAux ps acc).Pairwise (fun g h' => g.1 ≠ h'.1) := by
  induction ps generalizing acc with
  | nil => exact h
  | cons p rest ih =>
    obtain ⟨i, mo⟩ := p
    cases mo with
    | none => exact ih acc h
    | some m => exact ih _ (pairwiseKeys_addToGroup acc (materialKey m) i h)

/-- Helper: the groups of any per-face material list have pairwise-distinct keys. -/
theorem pairwiseKeys_groupFaces (fm : List (Option Mat4)) :
    (groupFaces fm).Pairwise (fun g h' => g.1 ≠ h'.1) :=
  pairwiseKeys_groupFacesAux fm.enum [] (by simp)

/-- Helper: any member of any bucket carries that bucket's key. -/
theorem groupFaces_sound (fm : List (Option Mat4)) :
    ∀ p ∈ groupFaces fm, ∀ j ∈ p.2, ∃ m, fm.get? j = some (some m) ∧ materialKey m = p.1 := by
  intro p hp j hj
  exact (mem_groupFaces fm p.1 j).1 ⟨p.2, by simpa using hp, hj⟩

/-- Helper: `mapOpt` preserves length on success. -/
theorem length_mapOpt {α β : Type} (f : α → Option β) (l : List α) (l' : List β)
    (h : mapOpt f l = some l') : l'.length = l.length := by
  induction l generalizing l' with
  | nil =>
    simp only [mapOpt] at h
    simp [← Option.some.inj h]
  | cons a rest ih =>
    simp only [mapOpt] at h
    cases hf : f a with
    | none => rw [hf] at h; simp at h
    | some b =>
      rw [hf] at h
      cases hr : mapOpt f rest with
      | none => rw [hr] at h; simp at h
      | some bs =>
        rw [hr] at h
        simp only at h
        rw [← Option.some.inj h]
        simp [ih bs hr]

/-- Helper: the polygon list and the per-face material list of one extraction have one
entry per triangle each. -/
theorem extractPolys_lengths (w : World) (e : Nat) (ps : List (List ℚ))
    (fm : List (Option Mat4)) (h : extractPolys w e = some (ps, fm)) :
    fm.length = ps.length := by
  unfold extractPolys at h
  cases hs : w.shapes e with
  | none => rw [hs] at h; simp at h
  | some shape =>
    rw [hs] at h
    simp only [Option.bind_eq_bind, Option.some_bind] at h
    cases hc : chunk3 shape.faces with
    | none => rw [hc] at h; simp at h
    | some tris =>
      rw [hc] at h
      simp only [Option.some_bind] at h
      cases hp : mapOpt (mkPoly w.georef shape.verts) tris with
      | none => rw [hp] at h; simp at h
      | some polys =>
        rw [hp] at h
        simp only [Option.some_bind] at h
        cases hf : mapOpt (faceMatAt shape.materialIds (materialsListOf shape.materials))
            (List.range tris.length) with
        | none => rw [hf] at h; simp at h
        | some fms =>
          rw [hf] at h
          simp only [Option.some_bind, pure, Option.some.injEq, Prod.mk.injEq] at h
          rw [← h.1, ← h.2, length_mapOpt _ _ _ hf, length_mapOpt _ _ _ hp,
            List.length_range]

/-- C5: for an element whose extraction yields a material on every triangle, the
material groups are pairwise disjoint sets of triangle indices, and their union is the
full triangle set of the mesh (an index is in some group iff it indexes a polygon). -/
theorem c5_material_groups_partition (w : World) (e : Nat) (ps : List (List ℚ))
    (fm : List (Option Mat4)) (hex : extractPolys w e = some (ps, fm))
    (hall : ∀ m ∈ fm, m ≠ none) :
    ((groupFaces fm).Pairwise (fun g h => ∀ i ∈ g.2, i ∉ h.2)) ∧
      (∀ i, (∃ p ∈ groupFaces fm, i ∈ p.2) ↔ i < ps.length) := by
  constructor
  · refine (pairwiseKeys_groupFaces fm).imp_of_mem ?_
    intro g h' hg hh hne i hig hih
    obtain ⟨m1, hm1, hk1⟩ := groupFaces_sound fm g hg i hig
    obtain ⟨m2, hm2, hk2⟩ := groupFaces_sound fm h' hh i hih
    obtain rfl : m1 = m2 := by
      have := hm1.symm.trans hm2
      exact Option.some.inj (Option.some.inj this)
    exact hne (hk1 ▸ hk2)
  · intro i
    rw [← extractPolys_lengths w e ps fm hex]
    constructor
    · rintro ⟨p, hp, hip⟩
      obtain ⟨m, hm, _⟩ := groupFaces_sound fm p hp i hip
      obtain ⟨hlt, -⟩ := List.get?_eq_some.1 hm
      exact hlt
    · intro hi
      have hmo : fm.get? i = some (fm.get ⟨i, hi⟩) := List.get?_eq_some.2 ⟨hi, rfl⟩
      have hne := hall (fm.get ⟨i, hi⟩) (List.get?_mem hmo)
      obtain ⟨m, hm⟩ := Option.ne_none_iff_exists'.1 hne
      rw [hm] at hmo
      obtain ⟨is', hmem, hj⟩ := (mem_groupFaces fm (materialKey m) i).2 ⟨m, hmo, rfl⟩
      exact ⟨(materialKey m, is'), hmem, hj⟩

/-- C5 witness at a concrete mesh: two triangles, each with a material. -/
theorem c5_material_groups_partition_witness :
    (extractPolys worldTwoTriangles 1 = some (twoTrianglePolys, twoTriangleMats) ∧
      ∀ m ∈ twoTriangleMats, m ≠ none) ∧
    ((groupFaces twoTriangleMats).Pairwise (fun g h => ∀ i ∈ g.2, i ∉ h.2)) ∧
      (∀ i, (∃ p ∈ groupFaces twoTriangleMats, i ∈ p.2) ↔ i < twoTrianglePolys.length) :=
  ⟨⟨by with_unfolding_all rfl, by decide⟩,
    c5_material_groups_partition worldTwoTriangles 1 twoTrianglePolys twoTriangleMats
      (by with_unfolding_all rfl) (by decide)⟩

/-- C8: faces whose material values round to the same key at six decimals land in the
same material group. -/
theorem c8_rounding_invariant (fm : List (Option Mat4)) (i j : Nat) (m1 m2 : Mat4)
    (h1 : fm.get? i = some (some m1)) (h2 : fm.get? j = some (some m2))
    (hr : round6 m1.1 = round6 m2.1) (hg : round6 m1.2.1 = round6 m2.2.1)
    (hb : round6 m1.2.2.1 = round6 m2.2.2.1) (ht : round6 m1.2.2.2 = round6 m2.2.2.2) :
    ∃ p ∈ groupFaces fm, i ∈ p.2 ∧ j ∈ p.2 := by
  have hkey : materialKey m1 = materialKey m2 := by
    unfold materialKey
    rw [hr, hg, hb, ht]
  obtain ⟨is1, hmem1, hi⟩ := (mem_groupFaces fm (materialKey m1) i).2 ⟨m1, h1, rfl⟩
  obtain ⟨is2, hmem2, hj⟩ := (mem_groupFaces fm (materialKey m1) j).2 ⟨m2, h2, hkey.symm⟩
  by_cases heq : is1 = is2
  · subst heq
    exact ⟨(materialKey m1, is1), hmem1, hi, hj⟩
  · exfalso
    have hpair := pairwiseKeys_groupFaces fm
    have hne : ((materialKey m1, is1) : Mat4 × List Nat) ≠ (materialKey m1, is2) := by
      intro hc
      exact heq (congrArg Prod.snd hc)
    exact (hpair.forall (fun a b h => Ne.symm h) hmem1 hmem2 hne) rfl

/-- C8 witness: colours differing only from the seventh decimal on merge into one
group. -/
theorem c8_rounding_invariant_witness :
    ∃ p ∈ groupFaces [some (1 + 1/10000000, 0, 0, 0), some ((1 : ℚ), 0, 0, 0)],
      0 ∈ p.2 ∧ 1 ∈ p.2 :=
  c8_rounding_invariant _ 0 1 (1 + 1/10000000, 0, 0, 0) (1, 0, 0, 0) rfl rfl
    (by with_unfolding_all rfl) (by with_unfolding_all rfl)
    (by with_unfolding_all rfl) (by with_unfolding_all rfl)

/-! ## C7: storey member-set union -/

/-- C7: the resolved member set of a storey is the set union of (a) its transitive
aggregation/nesting decomposition and (b) the elements of its contained-in-structure
relations; in particular an element reachable only through (b) is still a member. -/
theorem c7_storey_member_union (w : World) (storey : IfcElement) (e : Nat) :
    (e ∈ getStoreyElements w storey ↔
      e ∈ getDecomposition w storey.eid ∨ e ∈ containedInStorey storey) ∧
    (e ∈ containedInStorey storey → e ∈ getStoreyElements w storey) := by
  refine ⟨List.mem_append, fun h => List.mem_append.2 (Or.inr h)⟩

/-- C7 witness: in `worldStorey` the wall (entity 1) is reachable from the storey only
through the contained-in-structure relation, and it is in the member set. -/
theorem c7_storey_member_union_witness :
    (1 ∈ containedInStorey storeyOfWorldStorey →
      1 ∈ getStoreyElements worldStorey storeyOfWorldStorey) ∧
    1 ∈ containedInStorey storeyOfWorldStorey ∧
    1 ∉ getDecomposition worldStorey storeyOfWorldStorey.eid ∧
    1 ∈ getStoreyElements worldStorey storeyOfWorldStorey :=
  ⟨(c7_storey_member_union worldStorey storeyOfWorldStorey 1).2, by decide, by decide,
    (c7_storey_member_union worldStorey storeyOfWorldStorey 1).2 (by decide)⟩

/-! ## C9: geometry-extraction failure handling -/

/-- Helper: the polygon component of an extraction does not depend on the UUID
counter. -/
theorem getGeometryWithSurfaceIds_poly (w : World) (e c : Nat) :
    (getGeometryWithSurfaceIds w e c).1.1 = polyOf w e := by
  unfold getGeometryWithSurfaceIds polyOf
  cases extractPolys w e with
  | none => rfl
  | some p => cases p; rfl

/-- Helper: the confirmed-emitted set after one element step. -/
theorem processElem_exported (w : World) (kind : FeatKind) (wf rm : Bool) (bs : BState)
    (e : IfcElement) :
    (processElem w kind wf rm bs e).st.exported =
      (if polysTruthy (polyOf w e.eid) then addSet bs.st.exported e.eid
       else bs.st.exported) := by
  unfold processElem
  simp only [getGeometryWithSurfaceIds_poly]

/-- Helper: the confirmed-emitted set after a whole phase is a fold that only depends
on each element's own polygon success. -/
theorem processPhase_exported (w : World) (kind : FeatKind) (wf rm : Bool) (bs : BState)
    (es : List IfcElement) :
    (processPhase w kind wf rm bs es).st.exported =
      es.foldl
        (fun ex e => if polysTruthy (polyOf w e.eid) then addSet ex e.eid else ex)
        bs.st.exported := by
  induction es generalizing bs with
  | nil => rfl
  | cons e rest ih =>
    show (processPhase w kind wf rm (processElem w kind wf rm bs e) rest).st.exported = _
    rw [ih, List.foldl_cons, processElem_exported]

/-- C9: a geometry-extraction failure is caught locally: a kernel exception yields the
`(None, None, None)` triple with no UUIDs consumed; every extraction returns either
that triple or a fully populated one (the function is total — no exception escapes);
and an element whose polygons are not truthy contributes nothing to the
confirmed-emitted set, which is unchanged from processing the remaining elements
alone. -/
theorem c9_geometry_failure_isolated :
    (∀ (w : World) (e c : Nat), w.shapes e = none →
      getGeometryWithSurfaceIds w e c = ((none, none, none), c)) ∧
    (∀ (w : World) (e c : Nat),
      getGeometryWithSurfaceIds w e c = ((none, none, none), c) ∨
      ∃ ps sids fms, getGeometryWithSurfaceIds w e c =
        ((some ps, some sids, some fms), c + ps.length)) ∧
    (∀ (w : World) (kind : FeatKind) (wf rm : Bool) (bs : BState)
        (pre post : List IfcElement) (bad : IfcElement),
      polysTruthy (polyOf w bad.eid) = false →
      (processPhase w kind wf rm bs (pre ++ bad :: post)).st.exported =
        (processPhase w kind wf rm bs (pre ++ post)).st.exported) := by
  refine ⟨?_, ?_, ?_⟩
  · intro w e c h
    unfold getGeometryWithSurfaceIds extractPolys
    rw [h]
    rfl
  · intro w e c
    unfold getGeometryWithSurfaceIds
    cases hex : extractPolys w e with
    | none => exact Or.inl rfl
    | some p =>
      obtain ⟨ps, fms⟩ := p
      exact Or.inr ⟨ps, (List.range ps.length).map (fun i => c + i), fms, rfl⟩
  · intro w kind wf rm bs pre post bad hbad
    rw [processPhase_exported, processPhase_exported, List.foldl_append,
      List.foldl_append, List.foldl_cons, hbad]
    simp only [Bool.false_eq_true, if_false]

/-- C9 witness: a concrete kernel failure yields the `(None, None, None)` triple. -/
theorem c9_geometry_failure_isolated_witness :
    getGeometryWithSurfaceIds worldFailingWall 5 7 = ((none, none, none), 7) :=
  c9_geometry_failure_isolated.1 worldFailingWall 5 7 rfl

/-! ## Structural lemmas about the document assembler -/

/-- Helper: a successful dictionary lookup exposes its binding. -/
theorem lookupGml_mem (st : GenState) (e t : Nat) (h : lookupGml st e = some t) :
    (e, t) ∈ st.gmlIds := by
  unfold lookupGml at h
  cases hf : st.gmlIds.find? (fun p => p.1 == e) with
  | none => rw [hf] at h; simp at h
  | some p =>
    rw [hf] at h
    obtain ⟨p1, p2⟩ := p
    have hp : p1 == e := by simpa using List.find?_some hf
    have hmem := List.mem_of_find?_eq_some hf
    have h2 : p2 = t := by simpa using h
    have h1 : p1 = e := by simpa using hp
    rw [← h1, ← h2]
    exact hmem

/-- Helper: lookups only read the binding list. -/
theorem lookupGml_congr (st st' : GenState) (e : Nat) (h : st.gmlIds = st'.gmlIds) :
    lookupGml st e = lookupGml st' e := by
  unfold lookupGml
  rw [h]

/-- Helper: membership in a Python set model. -/
theorem mem_addSet (l : List Nat) (x y : Nat) : y ∈ addSet l x ↔ y ∈ l ∨ y = x := by
  unfold addSet
  by_cases h : l.contains x
  · rw [if_pos h]
    constructor
    · exact Or.inl
    · rintro (hy | rfl)
      · exact hy
      · exact List.mem_of_elem_eq_true h
  · rw [if_neg h]
    simp [List.mem_append]

/-- Helper: the UUID counter never decreases across one extraction. -/
theorem getGeometryWithSurfaceIds_ctr_le (w : World) (e c : Nat) :
    c ≤ (getGeometryWithSurfaceIds w e c).2 := by
  unfold getGeometryWithSurfaceIds
  cases extractPolys w e with
  | none => exact le_refl c
  | some p => obtain ⟨ps, fms⟩ := p; simp

/-- Helper: the UUID counter never decreases across one embedded filling. -/
theorem fillingConsume_le (w : World) (c dw : Nat) : c ≤ fillingConsume w c dw := by
  unfold fillingConsume
  by_cases h : polysTruthy (getGeometryWithSurfaceIds w dw c).1.1
  · simp only [h, if_pos]
    exact le_trans (getGeometryWithSurfaceIds_ctr_le w dw c) (Nat.le_succ _)
  · simp only [h]
    exact getGeometryWithSurfaceIds_ctr_le w dw c

/-- Helper: the UUID counter never decreases across a list of embedded fillings. -/
theorem foldl_fillingConsume_le (w : World) (dws : List Nat) (c : Nat) :
    c ≤ dws.foldl (fillingConsume w) c := by
  induction dws generalizing c with
  | nil => exact le_refl c
  | cons dw rest ih =>
    exact le_trans (fillingConsume_le w c dw) (ih (fillingConsume w c dw))

/-- Helper: one element step prepends exactly its fresh binding to the registry. -/
theorem processElem_gmlIds (w : World) (kind : FeatKind) (wf rm : Bool) (bs : BState)
    (e : IfcElement) :
    (processElem w kind wf rm bs e).st.gmlIds = (e.eid, bs.st.nextId) :: bs.st.gmlIds :=
  rfl

/-- Helper: one element step leaves the dummy-bucket registry alone. -/
theorem processElem_dummyMap (w : World) (kind : FeatKind) (wf rm : Bool) (bs : BState)
    (e : IfcElement) :
    (processElem w kind wf rm bs e).dummyMap = bs.dummyMap :=
  rfl

/-- Helper: one element step strictly advances the UUID counter. -/
theorem processElem_nextId_lt (w : World) (kind : FeatKind) (wf rm : Bool) (bs : BState)
    (e : IfcElement) :
    bs.st.nextId < (processElem w kind wf rm bs e).st.nextId := by
  have h1 : bs.st.nextId + 1 ≤
      (getGeometryWithSurfaceIds w e.eid (bs.st.nextId + 1)).2 :=
    getGeometryWithSurfaceIds_ctr_le w e.eid (bs.st.nextId + 1)
  show bs.st.nextId <
    ((if wf then getDoorsAndWindowsInElement w e else []).foldl (fillingConsume w)
      (if polysTruthy (getGeometryWithSurfaceIds w e.eid (bs.st.nextId + 1)).1.1
       then (getGeometryWithSurfaceIds w e.eid (bs.st.nextId + 1)).2 + 1
       else (getGeometryWithSurfaceIds w e.eid (bs.st.nextId + 1)).2))
  refine lt_of_lt_of_le ?_ (foldl_fillingConsume_le w _ _)
  by_cases h : polysTruthy (getGeometryWithSurfaceIds w e.eid (bs.st.nextId + 1)).1.1
  · rw [if_pos h]
    omega
  · rw [if_neg h]
    omega

/-- Helper: one element step appends its speculative feature  exactly when it is not
removed, and the feature records the element's geometry outcome. -/
theorem processElem_feats (w : World) (kind : FeatKind) (wf rm : Bool) (bs : BState)
    (e : IfcElement) :
    (processElem w kind wf rm bs e).feats =
      bs.feats ++
        (if rm && !(polysTruthy (polyOf w e.eid)) then []
         else
           [{ gmlId := bs.st.nextId, kind := kind, srcEid := some e.eid,
              isSolid := isIntendedSolid e.representation,
              hasGeometry := polysTruthy (polyOf w e.eid),
              fillings := if wf then getDoorsAndWindowsInElement w e else [],
              xlinks := [] }]) := by
  unfold processElem
  simp only [getGeometryWithSurfaceIds_poly]
  by_cases h : rm && !(polysTruthy (polyOf w e.eid))
  · rw [if_pos h, if_pos h, List.dropLast_concat, List.append_nil]
  · rw [if_neg h, if_neg h]

/-- Generic: a state property preserved by every step is preserved by a fold. -/
theorem foldl_preserves {α : Type} (P : BState → Prop) (f : BState → α → BState)
    (h : ∀ bs a, P bs → P (f bs a)) :
    ∀ (l : List α) (bs : BState), P bs → P (l.foldl f bs) := by
  intro l
  induction l with
  | nil => exact fun bs hp => hp
  | cons a rest ih => exact fun bs hp => ih (f bs a) (h bs a hp)

/-- Generic: features after a fold are the incoming ones plus per-step additions. -/
theorem foldl_mem_feats {α : Type} (f : BState → α → BState) (Q : Feature → Prop)
    (h : ∀ bs a g, g ∈ (f bs a).feats → g ∈ bs.feats ∨ Q g) :
    ∀ (l : List α) (bs : BState) (g : Feature),
      g ∈ (l.foldl f bs).feats → g ∈ bs.feats ∨ Q g := by
  intro l
  induction l with
  | nil => exact fun bs g hg => Or.inl hg
  | cons a rest ih =>
    intro bs g hg
    rcases ih (f bs a) g hg with h1 | h2
    · exact h bs a g h1
    · exact Or.inr h2

/-- Helper: one element step preserves the registry invariant. -/
theorem processElem_IdInv (w : World) (kind : FeatKind) (wf rm : Bool) (bs : BState)
    (e : IfcElement) (h : IdInv bs.st) : IdInv (processElem w kind wf rm bs e).st := by
  obtain ⟨hb, hi⟩ := h
  have hlt := processElem_nextId_lt w kind wf rm bs e
  constructor
  · intro p hp
    rw [processElem_gmlIds] at hp
    rcases List.mem_cons.1 hp with rfl | hp'
    · exact hlt
    · exact lt_trans (hb p hp') hlt
  · intro p hp q hq hpq
    rw [processElem_gmlIds] at hp hq
    rcases List.mem_cons.1 hp with rfl | hp' <;> rcases List.mem_cons.1 hq with heq | hq'
    · rw [heq]
    · exact absurd hpq.symm (Nat.ne_of_lt (hb q hq'))
    · rw [heq] at hpq
      exact absurd hpq (Nat.ne_of_lt (hb p hp'))
    · exact hi p hp' q hq' hpq

/-- Helper: one element step preserves confirmed-emitted soundness. -/
theorem processElem_ExpSound (w : World) (kind : FeatKind) (wf rm : Bool) (bs : BState)
    (e : IfcElement) (h : ExpSound w bs.st) :
    ExpSound w (processElem w kind wf rm bs e).st := by
  intro x hx
  rw [processElem_exported] at hx
  by_cases hg : polysTruthy (polyOf w e.eid)
  · rw [if_pos hg] at hx
    rcases (mem_addSet _ _ _).1 hx with hx' | rfl
    · exact h x hx'
    · exact hg
  · rw [if_neg hg] at hx
    exact h x hx

/-- Helper: one element step preserves dummy-bucket freshness. -/
theorem processElem_DummyFresh (w : World) (kind : FeatKind) (wf rm : Bool)
    (bs : BState) (e : IfcElement) (h : DummyFresh bs) :
    DummyFresh (processElem w kind wf rm bs e) := by
  intro d hd
  rw [processElem_dummyMap] at hd
  obtain ⟨hlt', hne⟩ := h d hd
  have hstep := processElem_nextId_lt w kind wf rm bs e
  refine ⟨lt_trans hlt' hstep, ?_⟩
  intro p hp
  rw [processElem_gmlIds] at hp
  rcases List.mem_cons.1 hp with rfl | hp'
  · exact (Nat.ne_of_lt hlt').symm
  · exact hne p hp'

/-- Helper: one element step preserves the combined per-building invariant. -/
theorem processElem_BInv (w : World) (kind : FeatKind) (wf rm : Bool) (bs : BState)
    (e : IfcElement) (h : BInv w bs) : BInv w (processElem w kind wf rm bs e) :=
  ⟨processElem_IdInv w kind wf rm bs e h.1,
   processElem_ExpSound w kind wf rm bs e h.2.1,
   processElem_DummyFresh w kind wf rm bs e h.2.2⟩

/-- Helper: a whole phase preserves the combined invariant. -/
theorem processPhase_BInv (w : World) (kind : FeatKind) (wf rm : Bool) (bs : BState)
    (es : List IfcElement) (h : BInv w bs) : BInv w (processPhase w kind wf rm bs es) :=
  foldl_preserves (BInv w) _ (fun bs e => processElem_BInv w kind wf rm bs e) es bs h

/-- Helper: the registry bindings are untouched by a dummy bucket. -/
theorem mkDummyBce_gmlIds (w : World) (key : String) (elems : List Nat) (bs : BState) :
    (mkDummyBce w key elems bs).st.gmlIds = bs.st.gmlIds :=
  rfl

/-- Helper: the confirmed-emitted set is untouched by a dummy bucket. -/
theorem mkDummyBce_exported (w : World) (key : String) (elems : List Nat) (bs : BState) :
    (mkDummyBce w key elems bs).st.exported = bs.st.exported :=
  rfl

/-- Helper: a dummy bucket registers its fresh gml:id under its key. -/
theorem mkDummyBce_dummyMap (w : World) (key : String) (elems : List Nat) (bs : BState) :
    (mkDummyBce w key elems bs).dummyMap = bs.dummyMap ++ [(key, bs.st.nextId)] :=
  rfl

/-- Helper: a dummy bucket appends one dummy feature. -/
theorem mkDummyBce_feats (w : World) (key : String) (elems : List Nat) (bs : BState) :
    (mkDummyBce w key elems bs).feats =
      bs.feats ++
        [{ gmlId := bs.st.nextId, kind := .dummy, srcEid := none, isSolid := false,
           hasGeometry := false, fillings := elems, xlinks := [] }] :=
  rfl

/-- Helper: a dummy bucket strictly advances the UUID counter. -/
theorem mkDummyBce_nextId_lt (w : World) (key : String) (elems : List Nat)
    (bs : BState) : bs.st.nextId < (mkDummyBce w key elems bs).st.nextId := by
  show bs.st.nextId < elems.foldl (fillingConsume w) (bs.st.nextId + 1)
  exact lt_of_lt_of_le (Nat.lt_succ_self _)
    (foldl_fillingConsume_le w elems (bs.st.nextId + 1))

/-- Helper: a dummy bucket preserves the combined invariant: its fresh id is larger
than every registered element id, so it can never collide with one. -/
theorem mkDummyBce_BInv (w : World) (key : String) (elems : List Nat) (bs : BState)
    (h : BInv w bs) : BInv w (mkDummyBce w key elems bs) := by
  obtain ⟨⟨hb, hi⟩, hexp, hdum⟩ := h
  have hlt := mkDummyBce_nextId_lt w key elems bs
  refine ⟨⟨?_, ?_⟩, ?_, ?_⟩
  · intro p hp
    rw [mkDummyBce_gmlIds] at hp
    exact lt_trans (hb p hp) hlt
  · intro p hp q hq hpq
    rw [mkDummyBce_gmlIds] at hp hq
    exact hi p hp q hq hpq
  · intro x hx
    rw [mkDummyBce_exported] at hx
    exact hexp x hx
  · intro d hd
    rw [mkDummyBce_dummyMap] at hd
    rcases List.mem_append.1 hd with hd' | hd''
    · obtain ⟨hlt', hne⟩ := hdum d hd'
      exact ⟨lt_trans hlt' hlt, fun p hp => hne p (by rw [← mkDummyBce_gmlIds w key elems bs]; exact hp)⟩
    · simp only [List.mem_singleton] at hd''
      rw [hd'']
      refine ⟨hlt, ?_⟩
      intro p hp
      rw [mkDummyBce_gmlIds] at hp
      exact Nat.ne_of_lt (hb p hp)

/-- Helper: the unmapped-opening phase preserves the combined invariant (it only
creates dummy buckets). -/
theorem makeDummies_BInv (w : World) (grouped : List (String × List Nat) × List Nat)
    (bs : BState) (h : BInv w bs) : BInv w (makeDummies w grouped bs) := by
  unfold makeDummies
  split
  · exact mkDummyBce_BInv _ _ _ _
      (foldl_preserves (BInv w) _
        (fun (bs : BState) (p : String × List Nat) => mkDummyBce_BInv w p.1 p.2 bs) _ _ h)
  · exact foldl_preserves (BInv w) _
      (fun (bs : BState) (p : String × List Nat) => mkDummyBce_BInv w p.1 p.2 bs) _ _ h

/-- Helper: the unmapped-opening phase preserves the combined invariant (it only
creates dummy buckets). -/
theorem unmappedPhase_BInv (w : World) (cfg : Config) (bel : List Nat) (bs : BState)
    (h : BInv w bs) : BInv w (unmappedPhase w cfg bel bs) := by
  unfold unmappedPhase
  split
  · exact h
  · split
    · split
      · exact makeDummies_BInv w _ bs h
      · exact h
    · exact h

/-- Helper: a dummy-bucket feature is the only kind the unmapped-opening phase adds. -/
theorem unmappedPhase_mem_feats (w : World) (cfg : Config) (bel : List Nat)
    (bs : BState) (f : Feature) (hf : f ∈ (unmappedPhase w cfg bel bs).feats) :
    f ∈ bs.feats ∨ f.kind = FeatKind.dummy := by
  have hstep : ∀ (bs' : BState) (p : String × List Nat) (g : Feature),
      g ∈ (mkDummyBce w p.1 p.2 bs').feats → g ∈ bs'.feats ∨ g.kind = FeatKind.dummy := by
    intro bs' p g hg
    rw [mkDummyBce_feats] at hg
    rcases List.mem_append.1 hg with h1 | h2
    · exact Or.inl h1
    · simp only [List.mem_singleton] at h2
      rw [h2]
      exact Or.inr rfl
  unfold unmappedPhase at hf
  split at hf
  · exact Or.inl hf
  · split at hf
    · split at hf
      · unfold makeDummies at hf
        split at hf
        · rw [mkDummyBce_feats] at hf
          rcases List.mem_append.1 hf with h1 | h2
          · exact foldl_mem_feats _ (fun g => g.kind = FeatKind.dummy) hstep _ _ f h1
          · simp only [List.mem_singleton] at h2
            rw [h2]
            exact Or.inr rfl
        · exact foldl_mem_feats _ (fun g => g.kind = FeatKind.dummy) hstep _ _ f hf
      · exact Or.inl hf
    · exact Or.inl hf

/-- Helper: a storey step does not change the registries. -/
theorem storeyStep_st (w : World) (bel : List Nat) (roomsList : List IfcElement)
    (bs : BState) (s : IfcElement) :
    (storeyStep w bel roomsList bs s).st.gmlIds = bs.st.gmlIds ∧
    (storeyStep w bel roomsList bs s).st.exported = bs.st.exported ∧
    (storeyStep w bel roomsList bs s).dummyMap = bs.dummyMap :=
  ⟨rfl, rfl, rfl⟩

/-- Helper: a passed guard certifies registration and confirmed emission. -/
theorem xlinkGuard_some (st : GenState) (e t : Nat) (h : xlinkGuard st e = some t) :
    lookupGml st e = some t ∧ e ∈ st.exported := by
  unfold xlinkGuard at h
  cases hl : lookupGml st e with
  | none => simp [hl] at h
  | some g =>
    simp only [hl] at h
    by_cases hc : st.exported.contains e
    · rw [if_pos hc] at h
      exact ⟨h, List.mem_of_elem_eq_true hc⟩
    · rw [if_neg hc] at h
      simp at h

/-- Helper: every target in a storey's member list is either the registered id of a
confirmed-emitted element (the guard on lines 1508-1513 and 1525-1531) or a
dummy-bucket id (lines 1515-1522). -/
theorem storeyXlinks_sound (w : World) (bel : List Nat) (roomsList : List IfcElement)
    (st : GenState) (dm : List (String × Nat)) (storey : IfcElement) :
    ∀ t ∈ storeyXlinks w bel roomsList st dm storey,
      (∃ e, lookupGml st e = some t ∧ e ∈ st.exported) ∨ ∃ key, (key, t) ∈ dm := by
  intro t ht
  unfold storeyXlinks at ht
  rcases List.mem_append.1 ht with h12 | h3
  · rcases List.mem_append.1 h12 with h1 | h2
    · obtain ⟨ty, _, hty⟩ := List.mem_flatMap.1 h1
      obtain ⟨e, _, he⟩ := List.mem_filterMap.1 hty
      exact Or.inl ⟨e.eid, xlinkGuard_some st e.eid t he⟩
    · refine Or.inr ?_
      unfold storeyDummyXlink at h2
      by_cases hg : storey.guid == ""
      · rw [if_neg (by simp [hg])] at h2
        simp at h2
      · rw [if_pos (by simp [hg])] at h2
        cases hfind : (dm.find? (fun p => p.1 == storey.guid)).map (fun p => p.2) with
        | none => simp [hfind] at h2
        | some gd =>
          simp only [hfind] at h2
          simp only [List.mem_singleton] at h2
          obtain ⟨p, hp, hpd⟩ := Option.map_eq_some'.1 hfind
          refine ⟨p.1, ?_⟩
          have hmem := List.mem_of_find?_eq_some hp
          obtain ⟨p1, p2⟩ := p
          simp only at hpd
          rw [h2, ← hpd]
          exact hmem
  · obtain ⟨room, _, hroom⟩ := List.mem_filterMap.1 h3
    refine Or.inl ⟨room.eid, ?_⟩
    by_cases hsel : (getStoreyElements w storey).contains room.eid
    · rw [if_pos hsel] at hroom
      exact xlinkGuard_some st room.eid t hroom
    · rw [if_neg hsel] at hroom
      simp at hroom

/-- Helper: the storey fold leaves the registries alone and every feature it appends is
a storey feature whose member list is sound for the incoming registries. -/
theorem storeyFold_sound (w : World) (bel : List Nat) (roomsList : List IfcElement)
    (storeys : List IfcElement) (bs : BState) :
    (storeys.foldl (storeyStep w bel roomsList) bs).st.gmlIds = bs.st.gmlIds ∧
    (storeys.foldl (storeyStep w bel roomsList) bs).st.exported = bs.st.exported ∧
    (storeys.foldl (storeyStep w bel roomsList) bs).dummyMap = bs.dummyMap ∧
    ∀ f ∈ (storeys.foldl (storeyStep w bel roomsList) bs).feats,
      f ∈ bs.feats ∨
        (f.kind = FeatKind.storey ∧
          ∀ t ∈ f.xlinks,
            (∃ e, lookupGml bs.st e = some t ∧ e ∈ bs.st.exported) ∨
              ∃ key, (key, t) ∈ bs.dummyMap) := by
  induction storeys generalizing bs with
  | nil => exact ⟨rfl, rfl, rfl, fun f hf => Or.inl hf⟩
  | cons s rest ih =>
    obtain ⟨hg, he, hd, hf⟩ := ih (storeyStep w bel roomsList bs s)
    refine ⟨hg, he, hd, ?_⟩
    intro f hmem
    rcases hf f hmem with h1 | h2
    · -- the feature comes from this step or before
      have hfeats : (storeyStep w bel roomsList bs s).feats =
          bs.feats ++
            [{ gmlId := bs.st.nextId, kind := FeatKind.storey, srcEid := some s.eid,
               isSolid := false, hasGeometry := false, fillings := [],
               xlinks := storeyXlinks w bel roomsList
                 { bs.st with nextId := bs.st.nextId + 1 } bs.dummyMap s }] := rfl
      rw [hfeats] at h1
      rcases List.mem_append.1 h1 with hold | hnew
      · exact Or.inl hold
      · simp only [List.mem_singleton] at hnew
        refine Or.inr ⟨by rw [hnew], ?_⟩
        intro t ht
        rw [hnew] at ht
        have hsound := storeyXlinks_sound w bel roomsList
          { bs.st with nextId := bs.st.nextId + 1 } bs.dummyMap s t ht
        rcases hsound with ⟨e, hl, hexp⟩ | hdum
        · exact Or.inl ⟨e, by rw [← lookupGml_congr bs.st _ e rfl]; exact hl, hexp⟩
        · exact Or.inr hdum
    · -- a feature appended by the rest of the fold, sound for the stepped state
      obtain ⟨hkind, hsound⟩ := h2
      refine Or.inr ⟨hkind, ?_⟩
      intro t ht
      rcases hsound t ht with ⟨e, hl, hexp⟩ | hdum
      · exact Or.inl ⟨e, by rw [lookupGml_congr bs.st _ e rfl]; exact hl, hexp⟩
      · exact Or.inr hdum

/-- Helper: a storey step preserves the combined invariant (it allocates one fresh id
and touches nothing else). -/
theorem storeyStep_BInv (w : World) (bel : List Nat) (roomsList : List IfcElement)
    (bs : BState) (s : IfcElement) (h : BInv w bs) :
    BInv w (storeyStep w bel roomsList bs s) := by
  obtain ⟨⟨hb, hi⟩, hexp, hdum⟩ := h
  have hnext : (storeyStep w bel roomsList bs s).st.nextId = bs.st.nextId + 1 := rfl
  obtain ⟨hg, he, hd⟩ := storeyStep_st w bel roomsList bs s
  refine ⟨⟨?_, ?_⟩, ?_, ?_⟩
  · intro p hp
    rw [hg] at hp
    rw [hnext]
    exact lt_trans (hb p hp) (Nat.lt_succ_self _)
  · intro p hp q hq hpq
    rw [hg] at hp hq
    exact hi p hp q hq hpq
  · intro x hx
    rw [he] at hx
    exact hexp x hx
  · intro d hdm
    rw [hd] at hdm
    obtain ⟨hlt, hne⟩ := hdum d hdm
    rw [hnext]
    refine ⟨lt_trans hlt (Nat.lt_succ_self _), ?_⟩
    intro p hp
    rw [hg] at hp
    exact hne p hp

/-- Helper: the storey phase preserves the combined invariant. -/
theorem storeyPhase_BInv (w : World) (bel : List Nat) (roomsList : List IfcElement)
    (bs : BState) (h : BInv w bs) : BInv w (storeyPhase w bel roomsList bs) :=
  foldl_preserves (BInv w) _ (fun bs s => storeyStep_BInv w bel roomsList bs s) _ bs h

/-- Helper: all the pre-storey phases preserve the combined invariant. -/
theorem buildingBody_BInv (w : World) (cfg : Config) (bel : List Nat)
    (roomsList : List IfcElement) (bs : BState) (h : BInv w bs) :
    BInv w (buildingBody w cfg bel roomsList bs) := by
  unfold buildingBody wallsPhase constructivesPhase installationsPhase furniturePhase
  refine foldl_preserves (BInv w) _
    (fun bs t => processPhase_BInv w .furniture false true bs (selectExact w bel t)) _ _ ?_
  refine processPhase_BInv w .room false true _ roomsList ?_
  refine foldl_preserves (BInv w) _
    (fun bs t => processPhase_BInv w .installation false true bs (selectExact w bel t)) _ _ ?_
  refine unmappedPhase_BInv w cfg bel _ ?_
  refine foldl_preserves (BInv w) _
    (fun bs t => processPhase_BInv w .constructive true true bs (selectExact w bel t)) _ _ ?_
  exact foldl_preserves (BInv w) _
    (fun bs t => processPhase_BInv w .wall true false bs (selectExact w bel t)) _ _ h

/-- Helper: one element step appends a feature of the phase's kind, and with the
removal branch active only when geometry was emitted. -/
theorem processElem_mem_feats (w : World) (kind : FeatKind) (wf rm : Bool)
    (bs : BState) (e : IfcElement) (f : Feature)
    (hf : f ∈ (processElem w kind wf rm bs e).feats) :
    f ∈ bs.feats ∨ (f.kind = kind ∧ (rm = true → f.hasGeometry = true)) := by
  rw [processElem_feats] at hf
  rcases List.mem_append.1 hf with h1 | h2
  · exact Or.inl h1
  · by_cases h : rm && !(polysTruthy (polyOf w e.eid))
    · rw [if_pos h] at h2
      simp at h2
    · rw [if_neg h] at h2
      simp only [List.mem_singleton] at h2
      subst h2
      refine Or.inr ⟨rfl, fun hrm => ?_⟩
      rw [hrm] at h
      simpa using h

/-- Helper: phase-level version of the feature characterization. -/
theorem processPhase_mem_feats (w : World) (kind : FeatKind) (wf rm : Bool)
    (bs : BState) (es : List IfcElement) (f : Feature)
    (hf : f ∈ (processPhase w kind wf rm bs es).feats) :
    f ∈ bs.feats ∨ (f.kind = kind ∧ (rm = true → f.hasGeometry = true)) :=
  foldl_mem_feats _ _ (fun bs e g hg => processElem_mem_feats w kind wf rm bs e g hg)
    es bs f hf

/-- Helper: features present after the pre-storey phases are the incoming ones, or
speculative nodes of the non-storey kinds; for the kinds processed with a removal
branch the node is only present when its geometry was emitted. -/
theorem buildingBody_mem_feats (w : World) (cfg : Config) (bel : List Nat)
    (roomsList : List IfcElement) (bs : BState) (f : Feature)
    (hf : f ∈ (buildingBody w cfg bel roomsList bs).feats) :
    f ∈ bs.feats ∨
      (f.kind ≠ FeatKind.storey ∧
        ((f.kind = FeatKind.constructive ∨ f.kind = FeatKind.installation ∨
          f.kind = FeatKind.room ∨ f.kind = FeatKind.furniture) →
          f.hasGeometry = true)) := by
  unfold buildingBody wallsPhase constructivesPhase installationsPhase
    furniturePhase at hf
  rcases foldl_mem_feats _
      (fun g => g.kind = FeatKind.furniture ∧ (true = true → g.hasGeometry = true))
      (fun bs t g hg => processPhase_mem_feats w .furniture false true bs
        (selectExact w bel t) g hg) _ _ f hf with hf | hQ
  · rcases processPhase_mem_feats w .room false true _ roomsList f hf with hf | hQ
    · rcases foldl_mem_feats _
          (fun g => g.kind = FeatKind.installation ∧ (true = true → g.hasGeometry = true))
          (fun bs t g hg => processPhase_mem_feats w .installation false true bs
            (selectExact w bel t) g hg) _ _ f hf with hf | hQ
      · rcases unmappedPhase_mem_feats w cfg bel _ f hf with hf | hQ
        · rcases foldl_mem_feats _
              (fun g => g.kind = FeatKind.constructive ∧
                (true = true → g.hasGeometry = true))
              (fun bs t g hg => processPhase_mem_feats w .constructive true true bs
                (selectExact w bel t) g hg) _ _ f hf with hf | hQ
          · rcases foldl_mem_feats _
                (fun g => g.kind = FeatKind.wall ∧ (false = true → g.hasGeometry = true))
                (fun bs t g hg => processPhase_mem_feats w .wall true false bs
                  (selectExact w bel t) g hg) _ _ f hf with hf | hQ
            · exact Or.inl hf
            · refine Or.inr ⟨(by rw [hQ.1]; intro hc; cases hc), ?_⟩
              rw [hQ.1]
              intro hc
              rcases hc with hc | hc | hc | hc <;> cases hc
          · refine Or.inr ⟨(by rw [hQ.1]; intro hc; cases hc), fun _ => hQ.2 rfl⟩
        · refine Or.inr ⟨(by rw [hQ]; intro hc; cases hc), ?_⟩
          rw [hQ]
          intro hc
          rcases hc with hc | hc | hc | hc <;> cases hc
      · refine Or.inr ⟨(by rw [hQ.1]; intro hc; cases hc), fun _ => hQ.2 rfl⟩
    · refine Or.inr ⟨(by rw [hQ.1]; intro hc; cases hc), fun _ => hQ.2 rfl⟩
  · refine Or.inr ⟨(by rw [hQ.1]; intro hc; cases hc), fun _ => hQ.2 rfl⟩

/-- Helper: confirmed-emitted soundness is preserved by a dummy bucket. -/
theorem mkDummyBce_ExpSound (w : World) (key : String) (elems : List Nat) (bs : BState)
    (h : ExpSound w bs.st) : ExpSound w (mkDummyBce w key elems bs).st := by
  intro x hx
  rw [mkDummyBce_exported] at hx
  exact h x hx

/-- Helper: confirmed-emitted soundness is preserved by the dummy-bucket block. -/
theorem makeDummies_ExpSound (w : World) (grouped : List (String × List Nat) × List Nat)
    (bs : BState) (h : ExpSound w bs.st) : ExpSound w (makeDummies w grouped bs).st := by
  unfold makeDummies
  split
  · exact mkDummyBce_ExpSound _ _ _ _
      (foldl_preserves (fun bs => ExpSound w bs.st) _
        (fun (bs : BState) (p : String × List Nat) => mkDummyBce_ExpSound w p.1 p.2 bs) _ _ h)
  · exact foldl_preserves (fun bs => ExpSound w bs.st) _
      (fun (bs : BState) (p : String × List Nat) => mkDummyBce_ExpSound w p.1 p.2 bs) _ _ h

/-- Helper: confirmed-emitted soundness is preserved by the unmapped-opening phase. -/
theorem unmappedPhase_ExpSound (w : World) (cfg : Config) (bel : List Nat)
    (bs : BState) (h : ExpSound w bs.st) : ExpSound w (unmappedPhase w cfg bel bs).st := by
  unfold unmappedPhase
  split
  · exact h
  · split
    · split
      · exact makeDummies_ExpSound w _ bs h
      · exact h
    · exact h

/-- Helper: confirmed-emitted soundness is preserved by the storey phase. -/
theorem storeyPhase_ExpSound (w : World) (bel : List Nat) (roomsList : List IfcElement)
    (bs : BState) (h : ExpSound w bs.st) : ExpSound w (storeyPhase w bel roomsList bs).st := by
  refine foldl_preserves (fun bs => ExpSound w bs.st) _ ?_ _ bs h
  intro bs s hs x hx
  rw [(storeyStep_st w bel roomsList bs s).2.1] at hx
  exact hs x hx

/-- Helper: confirmed-emitted soundness is preserved by a whole element phase. -/
theorem processPhase_ExpSound (w : World) (kind : FeatKind) (wf rm : Bool)
    (bs : BState) (es : List IfcElement) (h : ExpSound w bs.st) :
    ExpSound w (processPhase w kind wf rm bs es).st :=
  foldl_preserves (fun bs => ExpSound w bs.st) _
    (fun bs e => processElem_ExpSound w kind wf rm bs e) es bs h

/-- Helper: confirmed-emitted soundness is preserved by every pre-storey phase. -/
theorem buildingBody_ExpSound (w : World) (cfg : Config) (bel : List Nat)
    (roomsList : List IfcElement) (bs : BState) (h : ExpSound w bs.st) :
    ExpSound w (buildingBody w cfg bel roomsList bs).st := by
  unfold buildingBody wallsPhase constructivesPhase installationsPhase furniturePhase
  refine foldl_preserves (fun bs => ExpSound w bs.st) _
    (fun bs t => processPhase_ExpSound w .furniture false true bs (selectExact w bel t)) _ _ ?_
  refine processPhase_ExpSound w .room false true _ roomsList ?_
  refine foldl_preserves (fun bs => ExpSound w bs.st) _
    (fun bs t => processPhase_ExpSound w .installation false true bs (selectExact w bel t)) _ _ ?_
  refine unmappedPhase_ExpSound w cfg bel _ ?_
  refine foldl_preserves (fun bs => ExpSound w bs.st) _
    (fun bs t => processPhase_ExpSound w .constructive true true bs (selectExact w bel t)) _ _ ?_
  exact foldl_preserves (fun bs => ExpSound w bs.st) _
    (fun bs t => processPhase_ExpSound w .wall true false bs (selectExact w bel t)) _ _ h

/-- Helper: every element confirmed emitted by one building run produced truthy
polygons (the set starts from the per-building reset and only sound elements are
added). -/
theorem processBuilding_ExpSound (w : World) (cfg : Config) (st0 : GenState)
    (b : IfcElement) :
    ∀ e ∈ (processBuilding w cfg st0 b).1.exported, polysTruthy (polyOf w e) = true := by
  have h0 : ExpSound w ({ st0 with exported := [] } : GenState) := by
    intro x hx
    cases hx
  intro e he
  have he' : e ∈ (processBuildingBState w cfg st0 b).st.exported := he
  unfold processBuildingBState at he'
  split at he'
  · exact buildingBody_ExpSound w cfg _ _ _ h0 e he'
  · exact storeyPhase_ExpSound w _ _ _
      (buildingBody_ExpSound w cfg _ _ _ h0) e he'

/-- Helper: registrations survive one element step (new bindings are prepended). -/
theorem processElem_gmlIds_suffix (ids : List (Nat × Nat)) (w : World)
    (kind : FeatKind) (wf rm : Bool) (bs : BState) (e : IfcElement)
    (h : ids <:+ bs.st.gmlIds) :
    ids <:+ (processElem w kind wf rm bs e).st.gmlIds := by
  rw [processElem_gmlIds]
  exact h.trans (List.suffix_cons _ _)

/-- Helper: registrations survive the dummy-bucket block. -/
theorem makeDummies_gmlIds (w : World) (grouped : List (String × List Nat) × List Nat)
    (bs : BState) : (makeDummies w grouped bs).st.gmlIds = bs.st.gmlIds := by
  have hfold : ∀ (l : List (String × List Nat)) (bs : BState),
      (l.foldl (fun bs p => mkDummyBce w p.1 p.2 bs) bs).st.gmlIds = bs.st.gmlIds := by
    intro l
    induction l with
    | nil => intro bs; rfl
    | cons p rest ih =>
      intro bs
      rw [List.foldl_cons, ih (mkDummyBce w p.1 p.2 bs), mkDummyBce_gmlIds]
  unfold makeDummies
  split
  · rw [mkDummyBce_gmlIds, hfold]
  · exact hfold _ bs

/-- Helper: registrations survive the unmapped-opening phase unchanged. -/
theorem unmappedPhase_gmlIds (w : World) (cfg : Config) (bel : List Nat)
    (bs : BState) : (unmappedPhase w cfg bel bs).st.gmlIds = bs.st.gmlIds := by
  unfold unmappedPhase
  split
  · rfl
  · split
    · split
      · exact makeDummies_gmlIds w _ bs
      · rfl
    · rfl

/-- Helper: registrations survive every pre-storey phase as a suffix (bindings are only
prepended, never removed). -/
theorem buildingBody_gmlIds_suffix (ids : List (Nat × Nat)) (w : World) (cfg : Config)
    (bel : List Nat) (roomsList : List IfcElement) (bs : BState)
    (h : ids <:+ bs.st.gmlIds) :
    ids <:+ (buildingBody w cfg bel roomsList bs).st.gmlIds := by
  have hphase : ∀ (kind : FeatKind) (wf rm : Bool) (es : List IfcElement) (bs : BState),
      ids <:+ bs.st.gmlIds → ids <:+ (processPhase w kind wf rm bs es).st.gmlIds :=
    fun kind wf rm es bs h =>
      foldl_preserves (fun bs => ids <:+ bs.st.gmlIds) _
        (fun bs e => processElem_gmlIds_suffix ids w kind wf rm bs e) es bs h
  unfold buildingBody wallsPhase constructivesPhase installationsPhase furniturePhase
  refine foldl_preserves (fun bs => ids <:+ bs.st.gmlIds) _
    (fun bs t => hphase .furniture false true (selectExact w bel t) bs) _ _ ?_
  refine hphase .room false true roomsList _ ?_
  refine foldl_preserves (fun bs => ids <:+ bs.st.gmlIds) _
    (fun bs t => hphase .installation false true (selectExact w bel t) bs) _ _ ?_
  dsimp only
  rw [unmappedPhase_gmlIds]
  refine foldl_preserves (fun bs => ids <:+ bs.st.gmlIds) _
    (fun bs t => hphase .constructive true true (selectExact w bel t) bs) _ _ ?_
  exact foldl_preserves (fun bs => ids <:+ bs.st.gmlIds) _
    (fun bs t => hphase .wall true false (selectExact w bel t) bs) _ _ h

/-! ## C1: storey cross-references target only confirmed-emitted elements -/

/-- C1: in every building, every xlink target in a storey's member list that resolves
to a registered element resolves to a confirmed-emitted one whose geometry produced at
least one polygon; in particular no element whose extraction failed (or was empty) is
ever referenced, because such an element is never confirmed emitted and ids are never
shared.  The hypothesis is the registry invariant of the incoming run state, which the
fresh generator state satisfies and every building step preserves. -/
theorem c1_storey_xlinks_confirmed (w : World) (cfg : Config) (st0 : GenState)
    (b : IfcElement) (hinv : IdInv st0) :
    ∀ f ∈ (processBuilding w cfg st0 b).2, f.kind = FeatKind.storey →
      ∀ t ∈ f.xlinks, ∀ e, lookupGml (processBuilding w cfg st0 b).1 e = some t →
        e ∈ (processBuilding w cfg st0 b).1.exported ∧
          polysTruthy (polyOf w e) = true := by
  intro f hf hkind t ht e hle
  have hbinv0 : BInv w (⟨{ st0 with exported := [] }, [], [], []⟩ : BState) :=
    ⟨⟨fun p hp => hinv.1 p hp, fun p hp q hq hpq => hinv.2 p hp q hq hpq⟩,
     fun x hx => absurd hx (List.not_mem_nil x),
     fun d hd => absurd hd (List.not_mem_nil d)⟩
  have hbinvP := buildingBody_BInv w cfg (getDecomposition w b.eid)
    (roomsOf w (getDecomposition w b.eid)) _ hbinv0
  have hf' : f ∈ (processBuildingBState w cfg st0 b).feats := hf
  have hle' : lookupGml (processBuildingBState w cfg st0 b).st e = some t := hle
  show e ∈ (processBuildingBState w cfg st0 b).st.exported ∧
    polysTruthy (polyOf w e) = true
  unfold processBuildingBState at hf' hle' ⊢
  by_cases hns : cfg.noStoreys
  · rw [if_pos hns] at hf' hle' ⊢
    rcases buildingBody_mem_feats w cfg _ _ _ f hf' with h0 | h2
    · exact absurd h0 (List.not_mem_nil f)
    · exact absurd hkind h2.1
  · rw [if_neg hns] at hf' hle' ⊢
    unfold storeyPhase at hf' hle' ⊢
    obtain ⟨hg, he, hd, hfs⟩ := storeyFold_sound w (getDecomposition w b.eid)
      (roomsOf w (getDecomposition w b.eid))
      ((byType w "IfcBuildingStorey").filter
        (fun e => (getDecomposition w b.eid).contains e.eid))
      (buildingBody w cfg (getDecomposition w b.eid)
        (roomsOf w (getDecomposition w b.eid))
        ⟨{ st0 with exported := [] }, [], [], []⟩)
    rcases hfs f hf' with h1 | ⟨_, hsound⟩
    · rcases buildingBody_mem_feats w cfg _ _ _ f h1 with h0 | h2
      · exact absurd h0 (List.not_mem_nil f)
      · exact absurd hkind h2.1
    · have hlP : lookupGml (buildingBody w cfg (getDecomposition w b.eid)
          (roomsOf w (getDecomposition w b.eid))
          ⟨{ st0 with exported := [] }, [], [], []⟩).st e = some t := by
        rw [← lookupGml_congr _ _ e hg]
        exact hle'
      have hmem_e := lookupGml_mem _ e t hlP
      rcases hsound t ht with ⟨e0, hl0, hexp0⟩ | ⟨key, hdum⟩
      · have hmem_e0 := lookupGml_mem _ e0 t hl0
        have heq : e = e0 := hbinvP.1.2 (e, t) hmem_e (e0, t) hmem_e0 rfl
        rw [he]
        exact ⟨heq ▸ hexp0, heq ▸ hbinvP.2.1 e0 hexp0⟩
      · exact absurd rfl ((hbinvP.2.2 (key, t) hdum).2 (e, t) hmem_e)

/-- The run of `worldStorey`'s building, evaluated: the wall is exported under gml:id 0
and the storey references it. -/
theorem processBuilding_worldStorey :
    processBuilding worldStorey cfgDefault ⟨0, [], []⟩ bldgStorey =
      (⟨4, [(1, 0)], [1]⟩,
       [{ gmlId := 0, kind := .wall, srcEid := some 1, isSolid := false,
          hasGeometry := true, fillings := [], xlinks := [] },
        { gmlId := 3, kind := .storey, srcEid := some 2, isSolid := false,
          hasGeometry := false, fillings := [], xlinks := [0] }]) := by
  with_unfolding_all rfl

/-- C1 witness: in `worldStorey` the storey's single xlink targets the wall, which is
confirmed emitted with truthy polygons. -/
theorem c1_storey_xlinks_confirmed_witness :
    1 ∈ (processBuilding worldStorey cfgDefault ⟨0, [], []⟩ bldgStorey).1.exported ∧
      polysTruthy (polyOf worldStorey 1) = true :=
  c1_storey_xlinks_confirmed worldStorey cfgDefault ⟨0, [], []⟩ bldgStorey
    ⟨fun p hp => absurd hp (List.not_mem_nil p),
     fun p hp _ _ _ => absurd hp (List.not_mem_nil p)⟩
    { gmlId := 3, kind := .storey, srcEid := some 2, isSolid := false,
      hasGeometry := false, fillings := [], xlinks := [0] }
    (by rw [processBuilding_worldStorey]; decide)
    rfl 0 (by decide) 1 (by rw [processBuilding_worldStorey]; decide)

/-! ## C2: speculative node removal -/

/-- C2 counterexample: a wall whose geometry extraction fails keeps its speculative
node in the document — the wall loop has no `building.remove` branch — contradicting
the claim that the node is removed for every constructive element including walls. -/
theorem c2_counterexample :
    polyOf worldFailingWall 1 = none ∧
    ∃ f ∈ (processBuilding worldFailingWall cfgDefault ⟨0, [], []⟩ bldgFailingWall).2,
      f.kind = FeatKind.wall ∧ f.srcEid = some 1 ∧ f.hasGeometry = false := by
  decide

/-- C2 amended: for the non-wall constructive, installation, room and furniture
states, a feature node present in the document has emitted geometry (the speculative
node was removed otherwise); and every element of any state — walls included — whose
geometry emission produced no polygons is kept out of the confirmed-emitted set.  Wall
nodes without geometry remain in the document. -/
theorem c2_speculative_node_amended (w : World) (cfg : Config) (st0 : GenState)
    (b : IfcElement) :
    (∀ f ∈ (processBuilding w cfg st0 b).2,
      (f.kind = FeatKind.constructive ∨ f.kind = FeatKind.installation ∨
        f.kind = FeatKind.room ∨ f.kind = FeatKind.furniture) →
      f.hasGeometry = true) ∧
    (∀ e ∈ (processBuilding w cfg st0 b).1.exported,
      polysTruthy (polyOf w e) = true) := by
  refine ⟨?_, processBuilding_ExpSound w cfg st0 b⟩
  intro f hf hkinds
  have hf' : f ∈ (processBuildingBState w cfg st0 b).feats := hf
  unfold processBuildingBState at hf'
  split at hf'
  · rcases buildingBody_mem_feats w cfg _ _ _ f hf' with h0 | h2
    · exact absurd h0 (List.not_mem_nil f)
    · exact h2.2 hkinds
  · unfold storeyPhase at hf'
    obtain ⟨_, _, _, hfs⟩ := storeyFold_sound w (getDecomposition w b.eid)
      (roomsOf w (getDecomposition w b.eid))
      ((byType w "IfcBuildingStorey").filter
        (fun e => (getDecomposition w b.eid).contains e.eid))
      (buildingBody w cfg (getDecomposition w b.eid)
        (roomsOf w (getDecomposition w b.eid))
        ⟨{ st0 with exported := [] }, [], [], []⟩)
    rcases hfs f hf' with h1 | ⟨hkind, _⟩
    · rcases buildingBody_mem_feats w cfg _ _ _ f h1 with h0 | h2
      · exact absurd h0 (List.not_mem_nil f)
      · exact h2.2 hkinds
    · rcases hkinds with hc | hc | hc | hc <;> rw [hkind] at hc <;> cases hc

/-- C2 amended witness: the successfully extracted wall of `worldStorey` is in the
confirmed-emitted set, so its polygons are truthy. -/
theorem c2_speculative_node_amended_witness :
    polysTruthy (polyOf worldStorey 1) = true :=
  (c2_speculative_node_amended worldStorey cfgDefault ⟨0, [], []⟩ bldgStorey).2 1
    (by rw [processBuilding_worldStorey]; decide)

/-! ## C4: per-building registry reset -/

/-- C4 counterexample: after processing two buildings — the second containing no
elements — the element-to-identifier map still holds the binding made while processing
the first building, so it is not cleared at the start of each building's processing
(only the confirmed-emitted set is; see the amended theorem). -/
theorem c4_counterexample :
    lookupGml (generateModel worldTwoBuildings cfgDefault).1 1 = some 0 ∧
    1 ∉ getDecomposition worldTwoBuildings 3 := by
  decide

/-- C4 amended: at the start of each building's processing the confirmed-emitted set
is cleared — the incoming set is invisible to the building's processing — while the
element-to-identifier map persists: every binding present before the building is still
present (as a suffix of the registry list) afterwards. -/
theorem c4_registry_reset_amended (w : World) (cfg : Config) (n : Nat)
    (ids : List (Nat × Nat)) (ex ex' : List Nat) (b : IfcElement) :
    processBuilding w cfg ⟨n, ids, ex⟩ b = processBuilding w cfg ⟨n, ids, ex'⟩ b ∧
    ids <:+ (processBuilding w cfg ⟨n, ids, ex⟩ b).1.gmlIds := by
  constructor
  · rfl
  · show ids <:+ (processBuildingBState w cfg ⟨n, ids, ex⟩ b).st.gmlIds
    unfold processBuildingBState
    have hbody : ids <:+ (buildingBody w cfg (getDecomposition w b.eid)
        (roomsOf w (getDecomposition w b.eid))
        ⟨{ (⟨n, ids, ex⟩ : GenState) with exported := [] }, [], [], []⟩).st.gmlIds :=
      buildingBody_gmlIds_suffix ids w cfg _ _ _ (List.suffix_refl ids)
    split
    · exact hbody
    · unfold storeyPhase
      rw [(storeyFold_sound w (getDecomposition w b.eid)
        (roomsOf w (getDecomposition w b.eid))
        ((byType w "IfcBuildingStorey").filter
          (fun e => (getDecomposition w b.eid).contains e.eid))
        (buildingBody w cfg (getDecomposition w b.eid)
          (roomsOf w (getDecomposition w b.eid))
          ⟨{ (⟨n, ids, ex⟩ : GenState) with exported := [] }, [], [], []⟩)).1]
      exact hbody

end Ifc2CityGml
